import Mathlib

/-!
Shallow embedding of the "undawned" lane-defense engine.

The definitions below are translated from the JavaScript sources:
* `Unit`, `Unit.takeDamage`, `Unit.move`    — js class `Unit`
* `Minion` variants and `MinionRegistry`    — js classes `Ashling` … `Dreadchant`
* `Hero` variants                           — js classes `Militiant`, `AshboltScout`, `Oathblade`
* `Lane.canPlaceAt`, `Lane.placeMinion`, `Lane.removeMinion`, `Lane.removeHero`
                                            — js class `Lane` (and `Tile`)
* `Game.canPlaceMinion`, `Game.placeMinionAt`, `Game.calculateHeroCount`,
  `Game.triggerOnslaught`, `Game.checkForOnslaught`, `Game.startWave`,
  `Game.spawnHeroInLane`, `Game.spawnNextHero`, `Game.areAllHeroesDead`,
  `Game.startNextWavePreparation`, `Game.checkGameOver`
                                            — js class `Game`

JavaScript numbers are modeled as `ℚ` (costs and counters that the source
keeps integral are `Nat`).  Randomness (`Math.random()` draws) is passed in
as explicit `ℚ` parameters in `[0,1)`.  Object identity (JS reference
equality, used by `indexOf`) is modeled by a numeric `id` field that is
unique per allocated unit.
-/

namespace Undawned

/-- The closed set of unit classes appearing in the source
(five minion classes from the `MinionRegistry`, three hero classes). -/
inductive UnitKind where
  | ashling | gravelim | gnarlroot | daemonaltar | dreadchant
  | militiant | ashboltScout | oathblade
deriving DecidableEq, Repr

/-- A game unit (js class `Unit` and its subclasses): identity, position and
combat attributes.  `id` models JS object identity. -/
structure Unit where
  id : Nat
  kind : UnitKind
  lane : Nat
  position : ℚ
  health : ℚ
  maxHealth : ℚ
  damage : ℚ
  attackSpeed : ℚ
  attackRange : ℚ
  moveSpeed : ℚ
  attackCooldown : ℚ
deriving DecidableEq, Repr

/-- Constructor stats of each unit class, copied from the js subclass
constructors (e.g. `Ashling`: health 60, damage 15, attackSpeed 1.2,
range 5; `Militiant`: health 80, damage 10, speed 0.3; …). -/
def mkUnit (k : UnitKind) (lane : Nat) (position : ℚ) (id : Nat) : Unit :=
  match k with
  | UnitKind.ashling =>
    { id := id, kind := k, lane := lane, position := position, health := 60, maxHealth := 60,
      damage := 15, attackSpeed := 6/5, attackRange := 5, moveSpeed := 0, attackCooldown := 0 }
  | UnitKind.gravelim =>
    { id := id, kind := k, lane := lane, position := position, health := 40, maxHealth := 40,
      damage := 12, attackSpeed := 4/5, attackRange := 7, moveSpeed := 0, attackCooldown := 0 }
  | UnitKind.gnarlroot =>
    { id := id, kind := k, lane := lane, position := position, health := 200, maxHealth := 200,
      damage := 0, attackSpeed := 0, attackRange := 0, moveSpeed := 0, attackCooldown := 0 }
  | UnitKind.daemonaltar =>
    { id := id, kind := k, lane := lane, position := position, health := 80, maxHealth := 80,
      damage := 0, attackSpeed := 0, attackRange := 0, moveSpeed := 0, attackCooldown := 0 }
  | UnitKind.dreadchant =>
    { id := id, kind := k, lane := lane, position := position, health := 80, maxHealth := 80,
      damage := 10, attackSpeed := 1, attackRange := 2, moveSpeed := 0, attackCooldown := 0 }
  | UnitKind.militiant =>
    { id := id, kind := k, lane := lane, position := position, health := 80, maxHealth := 80,
      damage := 10, attackSpeed := 1, attackRange := 1, moveSpeed := 3/10, attackCooldown := 0 }
  | UnitKind.ashboltScout =>
    { id := id, kind := k, lane := lane, position := position, health := 50, maxHealth := 50,
      damage := 8, attackSpeed := 3/2, attackRange := 3, moveSpeed := 2/5, attackCooldown := 0 }
  | UnitKind.oathblade =>
    { id := id, kind := k, lane := lane, position := position, health := 120, maxHealth := 120,
      damage := 15, attackSpeed := 4/5, attackRange := 1, moveSpeed := 1/4, attackCooldown := 0 }

/-- `static get cost()` of each minion class (hero classes inherit the
`Minion` base default `5`; they never occur in the registry). -/
def minionCost : UnitKind → ℚ
  | UnitKind.ashling => 3
  | UnitKind.gravelim => 5
  | UnitKind.gnarlroot => 4
  | UnitKind.daemonaltar => 8
  | UnitKind.dreadchant => 8
  | _ => 5

/-- The `MinionRegistry` object: defender-type identifier to class. -/
def MinionRegistry : String → Option UnitKind
  | "ashling" => some UnitKind.ashling
  | "gravelim" => some UnitKind.gravelim
  | "gnarlroot" => some UnitKind.gnarlroot
  | "daemonaltar" => some UnitKind.daemonaltar
  | "dreadchant" => some UnitKind.dreadchant
  | _ => none

/-- A lane (js class `Lane`): a row of tiles (each holding at most one
minion, js class `Tile` with its `minion` field), the live heroes and the
minions placed in this lane.  The js constructor builds exactly
`tileCount` tiles, so the js `tileCount` field is `tiles.length` here. -/
structure Lane where
  index : Nat
  tiles : List (Option Unit)
  heroes : List Unit
  minions : List Unit
deriving DecidableEq, Repr

/-- `new Lane(index, tileCount, game)`: `tileCount` empty tiles, no units. -/
def mkLane (index tileCount : Nat) : Lane :=
  { index := index, tiles := List.replicate tileCount none, heroes := [], minions := [] }

/-- The top-level game state (js class `Game`), restricted to the
simulation fields (canvas/renderer/UI fields are out of scope). -/
structure Game where
  daen : ℚ
  lanes : List Lane
  selectedMinionType : Option String
  gameOver : Bool
  victory : Bool
  waveNumber : Nat
  waveTimer : ℚ
  waveInterval : ℚ
  heroesInWave : Nat
  heroesRemaining : Nat
  onslaughtTriggered : Bool
  onslaughtComplete : Bool
  bossWave : Bool
  spawnTimer : ℚ
  spawnDelay : ℚ
  laneCount : Nat
  tileCount : Nat
  isPaused : Bool
  isPreparingNextWave : Bool
  preparationTimer : ℚ
deriving DecidableEq, Repr

/-- `new Game(canvasId)`: the initial simulation state (daen 10, wave 0,
7 lanes of 10 tiles, spawn delay 1000 ms, …). -/
def mkGame : Game :=
  { daen := 10, lanes := (List.range 7).map (fun i => mkLane i 10),
    selectedMinionType := none, gameOver := false, victory := false,
    waveNumber := 0, waveTimer := 0, waveInterval := 30000,
    heroesInWave := 0, heroesRemaining := 0,
    onslaughtTriggered := false, onslaughtComplete := false, bossWave := false,
    spawnTimer := 0, spawnDelay := 1000, laneCount := 7, tileCount := 10,
    isPaused := false, isPreparingNextWave := false, preparationTimer := 0 }

/-! ### Unit behavior (js `Unit`) -/

/-- `Unit.takeDamage(amount)`: subtract, clamp at 0; returns the updated
unit and whether it died from this damage (`die()` is performed by the
game-level wrappers below, as the js `die` acts on the owning lane). -/
def Unit.takeDamage (u : Unit) (amount : ℚ) : Unit × Bool :=
  let h := u.health - amount
  if h ≤ 0 then ({ u with health := 0 }, true) else ({ u with health := h }, false)

/-- `Unit.move(deltaTime, direction)`: advance by
`moveSpeed * deltaTime / 1000` in `direction`, clamped to
`[0, tileCount - 1]` (the js reads `this.game.tileCount`). -/
def Unit.move (u : Unit) (deltaTime direction : ℚ) (tileCount : Nat) : Unit :=
  let distance := u.moveSpeed * deltaTime / 1000
  { u with position := max 0 (min ((tileCount : ℚ) - 1) (u.position + distance * direction)) }

/-! ### Targeting (js `Minion.findTarget` and `Hero.findTarget`, which are
textually identical scans over the opposing collection) -/

/-- Distance between a scanning unit at `pos` and a candidate. -/
def distTo (pos : ℚ) (u : Unit) : ℚ := |pos - u.position|

/-- The `for (const c of collection)` loop of `findTarget`: carry the
current closest candidate and its distance (`closestDistance` starts at
`Infinity`, modeled by the `none` accumulator); a candidate replaces the
accumulator only if `distance <= attackRange && distance < closestDistance`. -/
def findTargetAux (pos range : ℚ) : List Unit → Option (Unit × ℚ) → Option (Unit × ℚ)
  | [], best => best
  | u :: rest, best =>
    let d := distTo pos u
    let better : Bool :=
      match best with
      | none => decide (d ≤ range)
      | some p => decide (d ≤ range ∧ d < p.2)
    findTargetAux pos range rest (if better then some (u, d) else best)

/-- The shared targeting scan: closest in-range candidate, first wins ties. -/
def findTargetIn (pos range : ℚ) (candidates : List Unit) : Option Unit :=
  (findTargetAux pos range candidates none).map Prod.fst

/-- `Minion.findTarget(lane)`: scan the lane's heroes. -/
def Minion.findTarget (m : Unit) (lane : Lane) : Option Unit :=
  findTargetIn m.position m.attackRange lane.heroes

/-- `Hero.findTarget(lane)`: scan the lane's minions. -/
def Hero.findTarget (h : Unit) (lane : Lane) : Option Unit :=
  findTargetIn h.position h.attackRange lane.minions

/-- `Hero.update(deltaTime)`: tick down the attack cooldown, find a target;
attack (and reset the cooldown) when a target exists and the cooldown is
ready, move toward the castle only when no target exists.  Returns the
updated hero and the minion it attacked this tick (`none` if it did not
attack); the damage dealt to that minion is `Unit.takeDamage` (applied by
the game-level wrapper `Game.minionTakeDamage`). -/
def Hero.update (h : Unit) (lane : Lane) (deltaTime : ℚ) (tileCount : Nat) : Unit × Option Unit :=
  let h1 := if 0 < h.attackCooldown then { h with attackCooldown := h.attackCooldown - deltaTime } else h
  match Hero.findTarget h1 lane with
  | some target =>
    if h1.attackCooldown ≤ 0 then
      ({ h1 with attackCooldown := 1000 / h1.attackSpeed }, some target)
    else
      (h1, none)
  | none => (h1.move deltaTime (-1) tileCount, none)

/-! ### Lane operations (js `Lane`, `Tile`) -/

/-- JS `array.indexOf(x)` followed by `splice(index, 1)`: remove the first
element with the given identity, keep the list unchanged when absent. -/
def removeFirstById (id0 : Nat) : List Unit → List Unit
  | [] => []
  | x :: xs => if x.id = id0 then xs else x :: removeFirstById id0 xs

/-- `Lane.canPlaceAt(tileIndex)`: index in `[0, tileCount)` and the tile
holds no minion (`Tile.isEmpty`). -/
def Lane.canPlaceAt (l : Lane) (tileIndex : Int) : Bool :=
  if tileIndex < 0 ∨ (l.tiles.length : Int) ≤ tileIndex then false
  else (l.tiles.getD tileIndex.toNat none).isNone

/-- `Lane.placeMinion(minion, tileIndex)`: fail if `canPlaceAt` is false;
otherwise `Tile.placeMinion` occupies the (empty) tile and the minion is
pushed onto the lane's `minions` list. -/
def Lane.placeMinion (l : Lane) (minion : Unit) (tileIndex : Int) : Lane × Bool :=
  if l.canPlaceAt tileIndex then
    match l.tiles.get? tileIndex.toNat with
    | some none =>
      ({ l with tiles := l.tiles.set tileIndex.toNat (some minion),
                minions := l.minions ++ [minion] }, true)
    | _ => (l, false)
  else (l, false)

/-- `Lane.removeMinion(minion)`: drop the first matching reference from the
`minions` list, then clear the tile at `Math.floor(minion.position)` if it
is in bounds and still references this minion. -/
def Lane.removeMinion (l : Lane) (minion : Unit) : Lane :=
  let l1 := { l with minions := removeFirstById minion.id l.minions }
  let tileIndex : Int := Int.floor minion.position
  if 0 ≤ tileIndex ∧ tileIndex < (l1.tiles.length : Int) then
    match l1.tiles.getD tileIndex.toNat none with
    | some x =>
      if x.id = minion.id then { l1 with tiles := l1.tiles.set tileIndex.toNat none } else l1
    | none => l1
  else l1

/-- `Lane.removeHero(hero)`: when the hero is present (`indexOf !== -1`),
notify every minion exposing `onEnemyDeath` (only `Dreadchant`: +3 daen if
the hero died within conversion range 3), roll the 50% kill reward
(+1 daen when the uniform draw `rand < 0.5`), then splice the hero out.
Returns the lane and the updated daen scalar. -/
def Lane.removeHero (l : Lane) (hero : Unit) (rand daen : ℚ) : Lane × ℚ :=
  if l.heroes.any (fun x => x.id == hero.id) then
    let daen1 := l.minions.foldl
      (fun d m =>
        if m.kind = UnitKind.dreadchant ∧ |m.position - hero.position| ≤ 3 then d + 3 else d)
      daen
    let daen2 := if rand < 1/2 then daen1 + 1 else daen1
    ({ l with heroes := removeFirstById hero.id l.heroes }, daen2)
  else (l, daen)

/-- `Lane.addHero(hero)`: push onto the heroes list. -/
def Lane.addHero (l : Lane) (hero : Unit) : Lane :=
  { l with heroes := l.heroes ++ [hero] }

/-! ### Placement (js `Game.canPlaceMinion` / `Game.placeMinionAt`) -/

/-- `Game.canPlaceMinion(laneIndex, tileIndex)`: bounds check, a minion
type must be selected and known to the registry, daen must cover its cost,
and the target tile must exist and be empty. -/
def Game.canPlaceMinion (g : Game) (laneIndex tileIndex : Int) : Bool :=
  if laneIndex < 0 ∨ (g.laneCount : Int) ≤ laneIndex ∨
     tileIndex < 0 ∨ (g.tileCount : Int) ≤ tileIndex then
    false
  else
    match g.selectedMinionType with
    | none => false
    | some t =>
      match MinionRegistry t with
      | none => false
      | some k =>
        if g.daen < minionCost k then false
        else
          match g.lanes.get? laneIndex.toNat with
          | none => false
          | some lane =>
            match lane.tiles.get? tileIndex.toNat with
            | none => false
            | some tile => tile.isNone

/-- `Game.placeMinionAt(laneIndex, tileIndex)`: guard with
`canPlaceMinion`; construct a fresh minion of the selected class at the
tile (`newId` models the fresh JS object identity), delegate to
`Lane.placeMinion`, and deduct the class cost from daen on success. -/
def Game.placeMinionAt (g : Game) (laneIndex tileIndex : Int) (newId : Nat) : Game × Bool :=
  if g.canPlaceMinion laneIndex tileIndex then
    match g.selectedMinionType with
    | none => (g, false)
    | some t =>
      match MinionRegistry t with
      | none => (g, false)
      | some k =>
        match g.lanes.get? laneIndex.toNat with
        | none => (g, false)
        | some lane =>
          let minion := mkUnit k laneIndex.toNat (tileIndex : ℚ) newId
          let placed := lane.placeMinion minion tileIndex
          if placed.2 then
            ({ g with lanes := g.lanes.set laneIndex.toNat placed.1,
                      daen := g.daen - minionCost k }, true)
          else (g, false)
  else (g, false)

/-! ### Damage and death (js `Unit.takeDamage` + `Hero.die` / `Minion.die`) -/

/-- `hero.takeDamage(amount)` for a hero object belonging to lane
`hero.lane` of `g`: apply `Unit.takeDamage`; on death run `Hero.die`
(`lane.removeHero`, which rolls the kill reward with the uniform draw
`rand`); otherwise the mutation of the shared object is visible through
the lane's `heroes` list (modeled by updating the entry with this id).
Returns the new game state, the updated hero object, and the died flag. -/
def Game.heroTakeDamage (g : Game) (hero : Unit) (amount rand : ℚ) : Game × Unit × Bool :=
  let r := Unit.takeDamage hero amount
  match g.lanes.get? hero.lane with
  | none => (g, r.1, r.2)
  | some lane =>
    if r.2 then
      let rh := lane.removeHero r.1 rand g.daen
      ({ g with lanes := g.lanes.set hero.lane rh.1, daen := rh.2 }, r.1, true)
    else
      let lane' := { lane with heroes := lane.heroes.map (fun x => if x.id == hero.id then r.1 else x) }
      ({ g with lanes := g.lanes.set hero.lane lane' }, r.1, false)

/-- `minion.takeDamage(amount)` for a minion object belonging to lane
`minion.lane` of `g`: apply `Unit.takeDamage`; on death run `Minion.die`
(`lane.removeMinion`); otherwise the shared-object mutation is visible
through the lane's `minions` list and the tile referencing it. -/
def Game.minionTakeDamage (g : Game) (minion : Unit) (amount : ℚ) : Game × Unit × Bool :=
  let r := Unit.takeDamage minion amount
  match g.lanes.get? minion.lane with
  | none => (g, r.1, r.2)
  | some lane =>
    if r.2 then
      ({ g with lanes := g.lanes.set minion.lane (lane.removeMinion r.1) }, r.1, true)
    else
      let lane' := { lane with
        minions := lane.minions.map (fun x => if x.id == minion.id then r.1 else x),
        tiles := lane.tiles.map (fun t =>
          match t with
          | some x => if x.id == minion.id then some r.1 else some x
          | none => none) }
      ({ g with lanes := g.lanes.set minion.lane lane' }, r.1, false)

/-! ### Wave scheduling (js `Game`) -/

/-- `Game.getWaveScaling()`: `1 + (waveNumber - 1) * 0.05`. -/
def Game.getWaveScaling (g : Game) : ℚ :=
  1 + ((g.waveNumber : ℚ) - 1) * (1/20)

/-- `Game.calculateHeroCount()`: base `10 + waveNumber * 5`; on every 5th
wave the count is `Math.floor(count * 1.5)` and the `bossWave` flag is
set, otherwise the flag is cleared.  Returns the updated game and count. -/
def Game.calculateHeroCount (g : Game) : Game × Nat :=
  let count := 10 + g.waveNumber * 5
  if g.waveNumber % 5 = 0 then
    ({ g with bossWave := true }, Nat.floor ((count : ℚ) * (3/2)))
  else
    ({ g with bossWave := false }, count)

/-- `Game.triggerOnslaught()` with the default arguments (`multiplier = 2`,
the only call sites pass none): add `Math.ceil(heroesInWave * 2)` to both
counters, set the spawn delay to 400 (boss wave) or 500 ms, set
`onslaughtTriggered`, clear `onslaughtComplete`. -/
def Game.triggerOnslaught (g : Game) : Game :=
  let onslaughtCount := Nat.ceil ((g.heroesInWave : ℚ) * 2)
  { g with onslaughtTriggered := true, onslaughtComplete := false,
           heroesInWave := g.heroesInWave + onslaughtCount,
           heroesRemaining := g.heroesRemaining + onslaughtCount,
           spawnDelay := if g.bossWave then 400 else 500 }

/-- `Game.checkForOnslaught()`: no-op once triggered or complete;
otherwise trigger when `heroesRemaining <= Math.ceil(heroesInWave * 0.2)`. -/
def Game.checkForOnslaught (g : Game) : Game :=
  if g.onslaughtTriggered || g.onslaughtComplete then g
  else if g.heroesRemaining ≤ Nat.ceil ((g.heroesInWave : ℚ) * (1/5)) then
    g.triggerOnslaught
  else g

/-- The option object accepted by `Game.startWave` (the `waveType` option
only affects a log line and is omitted).  JS truthiness: an absent or
zero `heroCount` falls back to `calculateHeroCount`; `spawnDelay` and
`waveNumber` are compared against `undefined`. -/
structure WaveOptions where
  isBossWave : Bool
  heroCount : Option Nat
  spawnDelay : Option ℚ
  waveNumber : Option Nat
deriving DecidableEq, Repr

/-- `startWave()` with no option object. -/
def noOptions : WaveOptions :=
  { isBossWave := false, heroCount := none, spawnDelay := none, waveNumber := none }

/-- `Game.startWave(options)`: set the wave number (override or +1), clear
the onslaught flags and preparation flag, compute the hero counters,
compute the spawn delay (`max(300, 1000 - waveNumber * 20)` overridden by
the fixed 700 ms on boss waves, unless an explicit delay is given), and
reset the spawn timer. -/
def Game.startWave (g : Game) (options : WaveOptions) : Game :=
  let w := match options.waveNumber with
    | some n => n
    | none => g.waveNumber + 1
  let g1 := { g with waveNumber := w, onslaughtTriggered := false,
                     onslaughtComplete := false, isPreparingNextWave := false }
  let gc := match options.heroCount with
    | some n => if n = 0 then g1.calculateHeroCount else (g1, n)
    | none => g1.calculateHeroCount
  let g3 := { gc.1 with heroesInWave := gc.2, heroesRemaining := gc.2 }
  let g4 := match options.spawnDelay with
    | some d => { g3 with spawnDelay := d }
    | none =>
      if options.isBossWave || g3.bossWave then
        { g3 with spawnDelay := 700, bossWave := true }
      else
        { g3 with spawnDelay := max 300 (1000 - (g3.waveNumber : ℚ) * 20) }
  { g4 with spawnTimer := 0 }

/-- `Game.spawnHeroInLane(laneIndex)` as called from `spawnNextHero` (no
option object): reject an invalid lane index; pick the hero class from the
wave-gated roll `heroTypeRoll` (Oathblade from wave 10 when the roll
exceeds 0.7, AshboltScout from wave 5 when it exceeds 0.5, else
Militiant) at start tile `tileCount - 1`; scale health and damage by the
wave scaling with `Math.ceil`, apply the ×1.5 boss scaling (again with
`Math.ceil`) and ×0.8 boss speed factor on every 5th wave, the capped
wave speed factor, and the ±10% jitter `0.9 + speedJitter * 0.2`; push the
hero onto the lane. -/
def Game.spawnHeroInLane (g : Game) (laneIndex : Nat) (newId : Nat)
    (heroTypeRoll speedJitter : ℚ) : Game :=
  match g.lanes.get? laneIndex with
  | none => g
  | some lane =>
    let startTile : ℚ := (g.tileCount : ℚ) - 1
    let base :=
      if 10 ≤ g.waveNumber ∧ 7/10 < heroTypeRoll then
        mkUnit UnitKind.oathblade laneIndex startTile newId
      else if 5 ≤ g.waveNumber ∧ 1/2 < heroTypeRoll then
        mkUnit UnitKind.ashboltScout laneIndex startTile newId
      else
        mkUnit UnitKind.militiant laneIndex startTile newId
    let waveScaling := g.getWaveScaling
    let health1 : ℚ := (Int.ceil (base.health * waveScaling) : ℚ)
    let damage1 : ℚ := (Int.ceil (base.damage * waveScaling) : ℚ)
    let speed1 : ℚ := base.moveSpeed
    let health2 : ℚ := if g.waveNumber % 5 = 0 then (Int.ceil (health1 * (3/2)) : ℚ) else health1
    let damage2 : ℚ := if g.waveNumber % 5 = 0 then (Int.ceil (damage1 * (3/2)) : ℚ) else damage1
    let speed2 : ℚ := if g.waveNumber % 5 = 0 then speed1 * (4/5) else speed1
    let waveSpeedScale : ℚ := min (3/2) (1 + ((g.waveNumber : ℚ) - 1) * (1/50))
    let speed3 := speed2 * waveSpeedScale * (9/10 + speedJitter * (1/5))
    let hero := { base with health := health2, maxHealth := health2,
                            damage := damage2, moveSpeed := speed3 }
    { g with lanes := g.lanes.set laneIndex (lane.addHero hero) }

/-- The synchronous body of `Game.spawnNextHero()` (the `setTimeout`
self-rescheduling is wall-clock plumbing; each timer expiry runs this step
— note the js body contains no `isPaused` or `gameOver` check).  `laneRoll`
is the uniform draw for `Math.floor(Math.random() * laneCount)`. -/
def Game.spawnNextHero (g : Game) (laneRoll heroTypeRoll speedJitter : ℚ) (newId : Nat) : Game :=
  if g.heroesRemaining = 0 then
    if g.onslaughtTriggered then
      { g with onslaughtComplete := true, onslaughtTriggered := false }
    else g
  else
    let laneIndex := (Int.floor (laneRoll * (g.laneCount : ℚ))).toNat
    let g1 := g.spawnHeroInLane laneIndex newId heroTypeRoll speedJitter
    let g2 := { g1 with heroesRemaining := g1.heroesRemaining - 1 }
    let g3 :=
      if g2.heroesRemaining = Nat.ceil ((g2.heroesInWave : ℚ) * (1/5)) ∧
         ¬ g2.onslaughtTriggered then
        g2.triggerOnslaught
      else g2
    if 0 < g3.heroesRemaining then g3
    else if g3.onslaughtTriggered then
      { g3 with onslaughtComplete := true, onslaughtTriggered := false }
    else g3

/-! ### Win/loss evaluation (js `Game.checkGameOver` etc.) -/

/-- `Game.startNextWavePreparation()` with default arguments: guard on the
flag, credit the wave bonus `10 + waveNumber * 2`, start the 15 s timer. -/
def Game.startNextWavePreparation (g : Game) : Game :=
  if g.isPreparingNextWave then g
  else
    { g with daen := g.daen + (10 + (g.waveNumber : ℚ) * 2),
             isPreparingNextWave := true, preparationTimer := 15000 }

/-- `Game.areAllHeroesDead()`: false as soon as some lane has a hero;
otherwise (side effect) start the next-wave preparation when not already
preparing, nothing left to spawn, and a wave has started. -/
def Game.areAllHeroesDead (g : Game) : Game × Bool :=
  if g.lanes.any (fun lane => !lane.heroes.isEmpty) then (g, false)
  else
    let g' := if ¬ g.isPreparingNextWave ∧ g.heroesRemaining = 0 ∧ 0 < g.waveNumber then
        g.startNextWavePreparation
      else g
    (g', true)

/-- `Game.checkGameOver()`: any hero at position ≤ 0 ends the game as a
loss; otherwise (JS `&&` short-circuit) when `waveNumber >= 10` and
`areAllHeroesDead()` the game ends as a win. -/
def Game.checkGameOver (g : Game) : Game :=
  if g.lanes.any (fun lane => lane.heroes.any (fun hero => decide (hero.position ≤ 0))) then
    { g with gameOver := true, victory := false }
  else if 10 ≤ g.waveNumber then
    let ad := g.areAllHeroesDead
    if ad.2 then { ad.1 with gameOver := true, victory := true } else ad.1
  else g

/-! ### Scheduler traces (for the once-per-wave onslaught property)

A wave's lifetime between two `startWave` calls is an arbitrary
interleaving of the two operations that can invoke `triggerOnslaught`:
`checkForOnslaught` evaluations and `spawnNextHero` timer expiries. -/

/-- One scheduler event: a `checkForOnslaught` evaluation, or one
`spawnNextHero` timer expiry with its three random draws and fresh id. -/
inductive SchedOp where
  | check : SchedOp
  | spawn (laneRoll heroTypeRoll speedJitter : ℚ) (newId : Nat) : SchedOp
deriving DecidableEq, Repr

/-- Apply one scheduler event to the game state. -/
def Game.applySchedOp (g : Game) : SchedOp → Game
  | SchedOp.check => g.checkForOnslaught
  | SchedOp.spawn lr hr sj i => g.spawnNextHero lr hr sj i

/-- Observer: does this event invoke `triggerOnslaught` on state `g`?
(Restates the guards of `checkForOnslaught` and of the inline check in
`spawnNextHero`; `spawnHeroInLane` touches only `lanes`, so the counters
read after the spawn equal those of `g`.) -/
def Game.opFiresOnslaught (g : Game) : SchedOp → Bool
  | SchedOp.check =>
    !(g.onslaughtTriggered || g.onslaughtComplete) &&
      decide (g.heroesRemaining ≤ Nat.ceil ((g.heroesInWave : ℚ) * (1/5)))
  | SchedOp.spawn _ _ _ _ =>
    decide (g.heroesRemaining ≠ 0) &&
      decide (g.heroesRemaining - 1 = Nat.ceil ((g.heroesInWave : ℚ) * (1/5))) &&
      !g.onslaughtTriggered

/-- Run a list of scheduler events. -/
def Game.runSched (g : Game) : List SchedOp → Game
  | [] => g
  | op :: ops => (g.applySchedOp op).runSched ops

/-- Number of `triggerOnslaught` invocations along a trace. -/
def Game.countOnslaughts (g : Game) : List SchedOp → Nat
  | [] => 0
  | op :: ops =>
    (if g.opFiresOnslaught op then 1 else 0) + (g.applySchedOp op).countOnslaughts ops

/-! ## Spec-level predicates (vocabulary of the claims, to be relates
to the code-level functions above) -/

/-- The claim's enumeration of invalid placement requests: out-of-bounds
lane or tile index, no defender type selected, unknown defender type,
insufficient Daen, or occupied tile. -/
def invalidPlacement (g : Game) (laneIndex tileIndex : Int) : Prop :=
  laneIndex < 0 ∨ (g.laneCount : Int) ≤ laneIndex ∨
  tileIndex < 0 ∨ (g.tileCount : Int) ≤ tileIndex ∨
  g.selectedMinionType = none ∨
  (∃ t, g.selectedMinionType = some t ∧ MinionRegistry t = none) ∨
  (∃ t k, g.selectedMinionType = some t ∧ MinionRegistry t = some k ∧ g.daen < minionCost k) ∨
  (∃ lane, g.lanes.get? laneIndex.toNat = some lane ∧
    ∃ u, lane.tiles.get? tileIndex.toNat = some (some u))

/-- Some attacker has reached the protected boundary (position ≤ 0). -/
def lossCondition (g : Game) : Prop :=
  ∃ lane ∈ g.lanes, ∃ hero ∈ lane.heroes, hero.position ≤ 0

/-- The nearest-eligible/first-on-tie contract for a targeting scan over
`cs`: if the scan returned nothing, no candidate is within `range`;
if it returned `u`, then `u` splits the container as `l1 ++ u :: l2`,
`u` is eligible, no eligible candidate is strictly closer, and every
eligible candidate before `u` is strictly farther (so among equidistant
eligible candidates the first encountered wins). -/
def isNearestFirst (pos range : ℚ) (cs : List Unit) (r : Option Unit) : Prop :=
  match r with
  | none => ∀ v ∈ cs, ¬ distTo pos v ≤ range
  | some u =>
    ∃ l1 l2, cs = l1 ++ u :: l2 ∧ distTo pos u ≤ range ∧
      (∀ v ∈ cs, distTo pos v ≤ range → distTo pos u ≤ distTo pos v) ∧
      (∀ v ∈ l1, distTo pos v ≤ range → distTo pos u < distTo pos v)

/-! ## Helper lemmas -/

lemma set_get?_eq {α : Type} (l : List α) (i : Nat) (a : α) (h : l.get? i = some a) :
    l.set i a = l := by
  induction l generalizing i with
  | nil => simp at h
  | cons x xs ih =>
    cases i with
    | zero => simp_all
    | succ n =>
      simp only [List.get?_cons_succ] at h
      simp [List.set_cons_succ, ih n h]

lemma removeFirstById_eq_self (id0 : Nat) (l : List Unit) (h : ∀ x ∈ l, x.id ≠ id0) :
    removeFirstById id0 l = l := by
  induction l with
  | nil => rfl
  | cons x xs ih =>
    have hx : x.id ≠ id0 := h x (by simp)
    simp only [removeFirstById, if_neg hx]
    rw [ih (fun y hy => h y (by simp [hy]))]

lemma removeFirstById_no_id (id0 : Nat) (l : List Unit)
    (h : l.countP (fun x => x.id == id0) ≤ 1) :
    ∀ x ∈ removeFirstById id0 l, x.id ≠ id0 := by
  induction l with
  | nil => simp [removeFirstById]
  | cons y ys ih =>
    by_cases hy : y.id = id0
    · simp only [removeFirstById, if_pos hy]
      rw [List.countP_cons_of_pos _ _ (by simpa using hy)] at h
      have h0 : ys.countP (fun x => x.id == id0) = 0 := by omega
      intro x hx
      have := List.countP_eq_zero.mp h0 x hx
      simpa using this
    · simp only [removeFirstById, if_neg hy]
      rw [List.countP_cons_of_neg _ _ (by simpa using hy)] at h
      intro x hx
      rcases List.mem_cons.mp hx with rfl | hx'
      · exact hy
      · exact ih h x hx'

lemma map_replace_eq_self (id0 : Nat) (m' : Unit) (l : List Unit)
    (h : ∀ x ∈ l, x.id ≠ id0) :
    l.map (fun x => if x.id == id0 then m' else x) = l := by
  induction l with
  | nil => rfl
  | cons x xs ih =>
    have hx : ¬ (x.id == id0) = true := by simpa using h x (by simp)
    simp only [List.map_cons, if_neg hx]
    rw [ih (fun y hy => h y (by simp [hy]))]

lemma tiles_replace_eq_self (id0 : Nat) (m' : Unit) (ts : List (Option Unit))
    (h : ∀ t ∈ ts, ∀ u : Unit, t = some u → u.id ≠ id0) :
    ts.map (fun t =>
      match t with
      | some x => if x.id == id0 then some m' else some x
      | none => none) = ts := by
  induction ts with
  | nil => rfl
  | cons t ts' ih =>
    have hrest := ih (fun t' ht' => h t' (by simp [ht']))
    cases t with
    | none => simpa using hrest
    | some x =>
      have hx : ¬ (x.id == id0) = true := by
        simpa using h (some x) (by simp) x rfl
      simp only [List.map_cons, if_neg hx]
      rw [hrest]

@[simp] lemma spawnHeroInLane_heroesInWave (g : Game) (i id0 : Nat) (r s : ℚ) :
    (g.spawnHeroInLane i id0 r s).heroesInWave = g.heroesInWave := by
  unfold Game.spawnHeroInLane; cases g.lanes.get? i <;> simp

@[simp] lemma spawnHeroInLane_heroesRemaining (g : Game) (i id0 : Nat) (r s : ℚ) :
    (g.spawnHeroInLane i id0 r s).heroesRemaining = g.heroesRemaining := by
  unfold Game.spawnHeroInLane; cases g.lanes.get? i <;> simp

@[simp] lemma spawnHeroInLane_onslaughtTriggered (g : Game) (i id0 : Nat) (r s : ℚ) :
    (g.spawnHeroInLane i id0 r s).onslaughtTriggered = g.onslaughtTriggered := by
  unfold Game.spawnHeroInLane; cases g.lanes.get? i <;> simp

@[simp] lemma spawnHeroInLane_onslaughtComplete (g : Game) (i id0 : Nat) (r s : ℚ) :
    (g.spawnHeroInLane i id0 r s).onslaughtComplete = g.onslaughtComplete := by
  unfold Game.spawnHeroInLane; cases g.lanes.get? i <;> simp

@[simp] lemma spawnHeroInLane_bossWave (g : Game) (i id0 : Nat) (r s : ℚ) :
    (g.spawnHeroInLane i id0 r s).bossWave = g.bossWave := by
  unfold Game.spawnHeroInLane; cases g.lanes.get? i <;> simp

@[simp] lemma spawnHeroInLane_spawnDelay (g : Game) (i id0 : Nat) (r s : ℚ) :
    (g.spawnHeroInLane i id0 r s).spawnDelay = g.spawnDelay := by
  unfold Game.spawnHeroInLane; cases g.lanes.get? i <;> simp

lemma countOnslaughts_zero (ops : List SchedOp) : ∀ (g : Game),
    (g.onslaughtComplete = true → g.heroesRemaining = 0) →
    (g.onslaughtTriggered = true ∨ g.onslaughtComplete = true) →
    Game.countOnslaughts g ops = 0 := by
  induction ops with
  | nil => intro g _ _; rfl
  | cons op ops ih =>
    intro g hInv hflag
    have hguard : (g.onslaughtTriggered || g.onslaughtComplete) = true := by
      rcases hflag with h | h <;> simp [h]
    have hfire : g.opFiresOnslaught op = false := by
      cases op with
      | check => simp [Game.opFiresOnslaught, hguard]
      | spawn lr hr sj id0 =>
        by_cases hrem : g.heroesRemaining = 0
        · simp [Game.opFiresOnslaught, hrem]
        · have hcomp : g.onslaughtComplete = false := by
            cases hx : g.onslaughtComplete with
            | false => rfl
            | true => exact absurd (hInv hx) hrem
          have htrig : g.onslaughtTriggered = true := by
            rcases hflag with h | h
            · exact h
            · simp [h] at hcomp
          simp [Game.opFiresOnslaught, htrig]
    rw [Game.countOnslaughts, hfire]
    simp only [Bool.false_eq_true, if_false, zero_add]
    refine ih _ ?_ ?_
    · cases op with
      | check =>
        simp only [Game.applySchedOp, Game.checkForOnslaught, hguard, if_true]
        exact hInv
      | spawn lr hr sj id0 =>
        simp only [Game.applySchedOp, Game.spawnNextHero]
        split_ifs <;> simp_all
    · cases op with
      | check =>
        simp only [Game.applySchedOp, Game.checkForOnslaught, hguard, if_true]
        exact hflag
      | spawn lr hr sj id0 =>
        by_cases hrem : g.heroesRemaining = 0
        · simp only [Game.applySchedOp, Game.spawnNextHero]
          split_ifs <;> simp_all
        · have hcomp : g.onslaughtComplete = false := by
            cases hx : g.onslaughtComplete with
            | false => rfl
            | true => exact absurd (hInv hx) hrem
          have htrig : g.onslaughtTriggered = true := by
            rcases hflag with h | h
            · exact h
            · simp [h] at hcomp
          simp only [Game.applySchedOp, Game.spawnNextHero]
          split_ifs <;> simp_all
lemma countOnslaughts_le_one (ops : List SchedOp) : ∀ (g : Game),
    g.onslaughtTriggered = false → g.onslaughtComplete = false →
    Game.countOnslaughts g ops ≤ 1 := by
  induction ops with
  | nil => intro g _ _; simp [Game.countOnslaughts]
  | cons op ops ih =>
    intro g h1 h2
    by_cases hfire : g.opFiresOnslaught op = true
    · rw [Game.countOnslaughts, hfire]
      have hz : Game.countOnslaughts (g.applySchedOp op) ops = 0 := by
        cases op with
        | check =>
          simp only [Game.opFiresOnslaught, h1, h2, Bool.or_self, Bool.not_false,
            Bool.true_and, decide_eq_true_eq] at hfire
          have hg : (g.onslaughtTriggered || g.onslaughtComplete) = false := by
            simp [h1, h2]
          have happ : g.applySchedOp SchedOp.check = g.triggerOnslaught := by
            simp only [Game.applySchedOp, Game.checkForOnslaught, hg,
              Bool.false_eq_true, if_false]
            rw [if_pos hfire]
          rw [happ]
          apply countOnslaughts_zero
          · simp [Game.triggerOnslaught]
          · simp [Game.triggerOnslaught]
        | spawn lr hr sj id0 =>
          simp only [Game.opFiresOnslaught, h1, Bool.not_false, Bool.and_true,
            Bool.and_eq_true, decide_eq_true_eq] at hfire
          obtain ⟨hrem, hthr⟩ := hfire
          apply countOnslaughts_zero
          · simp only [Game.applySchedOp, Game.spawnNextHero]
            split_ifs <;> simp_all [Game.triggerOnslaught]
          · simp only [Game.applySchedOp, Game.spawnNextHero]
            split_ifs <;> simp_all [Game.triggerOnslaught]
      rw [hz]
      simp
    · have hfire' : g.opFiresOnslaught op = false := by
        cases hx : g.opFiresOnslaught op with
        | false => rfl
        | true => exact absurd hx hfire
      rw [Game.countOnslaughts, hfire']
      simp only [Bool.false_eq_true, if_false, zero_add]
      have step : (g.applySchedOp op).onslaughtTriggered = false ∧
          (g.applySchedOp op).onslaughtComplete = false := by
        cases op with
        | check =>
          have hcond : ¬ g.heroesRemaining ≤ Nat.ceil ((g.heroesInWave : ℚ) * (1/5)) := by
            intro hc
            apply hfire
            rw [show (1/5 : ℚ) = 5⁻¹ by norm_num] at hc
            simp [Game.opFiresOnslaught, h1, h2, hc]
          have hg : (g.onslaughtTriggered || g.onslaughtComplete) = false := by
            simp [h1, h2]
          simp only [Game.applySchedOp, Game.checkForOnslaught, hg,
            Bool.false_eq_true, if_false]
          rw [if_neg hcond]
          exact ⟨h1, h2⟩
        | spawn lr hr sj id0 =>
          have hcond : g.heroesRemaining = 0 ∨
              ¬ g.heroesRemaining - 1 = Nat.ceil ((g.heroesInWave : ℚ) * (1/5)) := by
            by_cases ha : g.heroesRemaining = 0
            · exact Or.inl ha
            · by_cases hb : g.heroesRemaining - 1 = Nat.ceil ((g.heroesInWave : ℚ) * (1/5))
              · exact absurd (by simp [Game.opFiresOnslaught, h1, ha, hb]) hfire
              · exact Or.inr hb
          simp only [Game.applySchedOp, Game.spawnNextHero]
          rcases hcond with ha | hb
          · split_ifs <;> simp_all
          · split_ifs <;> simp_all
      exact ih _ step.1 step.2

/-! ## Concrete states used by counterexamples and witnesses -/

/-- A fresh game whose scheduler has reached wave 4 (next wave is the boss
wave 5). -/
def gWave4 : Game := { mkGame with waveNumber := 4 }

/-- A fresh game at the boss wave 5 (as set by `startWave`). -/
def gWave5 : Game := { mkGame with waveNumber := 5, bossWave := true }

/-- Wave 10 with all spawned attackers cleared from the lanes but 3
attackers of the current wave still pending spawn. -/
def gWinPending : Game := { mkGame with waveNumber := 10, heroesRemaining := 3 }

/-- A paused game mid-wave with 2 attackers still pending spawn and a
`setTimeout` spawn callback due. -/
def pausedGame : Game :=
  { mkGame with isPaused := true, waveNumber := 1, heroesInWave := 10,
                heroesRemaining := 2, spawnDelay := 820 }

/-- The state after `spawnWave({heroCount: 5, spawnDelay: 100, waveNumber: 1})`
started the wave: 5 attackers to spawn, explicit 100 ms spawn delay. -/
def gFastWave : Game :=
  mkGame.startWave
    { isBossWave := false, heroCount := some 5, spawnDelay := some 100, waveNumber := some 1 }

/-- Four spawn-timer expiries (enough to bring `heroesRemaining` from 5
down to the onslaught threshold `ceil(5 * 0.2) = 1`). -/
def fourSpawns : List SchedOp := List.replicate 4 (SchedOp.spawn 0 0 0 1)

/-! ## Claim theorems -/

/-- **C7.** For a hero spawned on wave 5 (a boss wave) with base health 80
(the Militiant class) and no optional multipliers, the per-spawn scaling
pipeline — wave scaling `1 + (5-1)*0.05 = 1.20`, then boss ×1.5, health
rounded up to an integer after scaling — yields final health exactly 144:
spawning into the empty lane 0 produces exactly one hero, of health 144. -/
theorem spawn_wave5_boss_health_144 :
    (mkUnit UnitKind.militiant 0 9 1).health = 80 ∧
    ((gWave5.spawnHeroInLane 0 1 0 0).lanes.getD 0 (mkLane 0 0)).heroes.map
      (fun h => h.health) = [144] ∧
    ((gWave5.spawnHeroInLane 0 1 0 0).lanes.getD 0 (mkLane 0 0)).heroes.map
      (fun h => h.kind) = [UnitKind.militiant] := by
  norm_num [gWave5, mkGame, mkLane, Game.spawnHeroInLane, Game.getWaveScaling, mkUnit,
    Lane.addHero, List.range_succ, List.getD]

/-- **C9** (failing-input evaluation). While the simulation is paused, a
pending scheduled spawn still adds an attacker to a lane: the
`spawnNextHero` body contains no `isPaused` check, so on the paused state
`pausedGame` a timer expiry appends a hero to lane 0 and decrements
`heroesRemaining`, contradicting "no pending scheduled spawn adds an
attacker to any lane" while paused. -/
theorem spawn_fires_while_paused :
    pausedGame.isPaused = true ∧
    (pausedGame.spawnNextHero 0 0 0 5).isPaused = true ∧
    ((pausedGame.spawnNextHero 0 0 0 5).lanes.getD 0 (mkLane 0 0)).heroes.length =
      ((pausedGame.lanes.getD 0 (mkLane 0 0)).heroes.length) + 1 ∧
    (pausedGame.spawnNextHero 0 0 0 5).heroesRemaining = pausedGame.heroesRemaining - 1 := by
  norm_num [pausedGame, mkGame, mkLane, Game.spawnNextHero, Game.spawnHeroInLane,
    Game.getWaveScaling, Game.triggerOnslaught, mkUnit, Lane.addHero, List.range_succ,
    List.getD]

/-- **C4** (counterexample). `checkGameOver` declares a win on wave 10 as
soon as the lanes are clear, even though 3 attackers of the current wave
are still pending spawn (`heroesRemaining = 3`): the win check does not
consult `heroesRemaining`, so the claim's "no attackers remain anywhere
(including attackers of the current wave not yet spawned)" is false. -/
theorem checkGameOver_win_ignores_unspawned :
    gWinPending.heroesRemaining = 3 ∧
    gWinPending.gameOver = false ∧
    (gWinPending.checkGameOver).gameOver = true ∧
    (gWinPending.checkGameOver).victory = true := by
  decide

/-- **C6** (counterexample). Starting the boss wave 5 without overrides:
the hero count is `Math.floor((10 + 5*5) * 1.5) = 52`, not the claim's
`(10 + 5*5) × 1.5 = 52.5`; and the boss spawn delay is the fixed 700 ms,
which is *smaller* (faster), not slower, than the formula value
`max(300, 1000 - 20*5) = 900`. -/
theorem startWave_boss_formula_cex :
    ((gWave4.startWave noOptions).waveNumber = 5) ∧
    (((gWave4.startWave noOptions).heroesInWave : ℚ) ≠ (10 + 5 * 5) * (3/2)) ∧
    ((gWave4.startWave noOptions).bossWave = true) ∧
    ((gWave4.startWave noOptions).spawnDelay = 700) ∧
    ((gWave4.startWave noOptions).spawnDelay < max 300 (1000 - 20 * 5)) := by
  have h : ((105:ℚ)/2) = ((105:ℕ):ℚ)/((2:ℕ):ℚ) := by norm_num
  norm_num [gWave4, mkGame, Game.startWave, noOptions, Game.calculateHeroCount]
  rw [h, Nat.floor_div_nat, Nat.floor_natCast]
  norm_num

/-- **C5** (counterexample). A wave started with an explicit 100 ms spawn
delay (`spawnWave({heroCount: 5, spawnDelay: 100, waveNumber: 1})`): after
four spawn-timer expiries the onslaught fires (exactly once), but the
spawn delay becomes 500 ms — it is *lengthened* from 100 ms, refuting
"the spawn delay is shortened" as a property of every onslaught firing. -/
theorem onslaught_lengthens_overridden_delay :
    gFastWave.spawnDelay = 100 ∧
    Game.countOnslaughts gFastWave fourSpawns = 1 ∧
    (gFastWave.runSched fourSpawns).onslaughtTriggered = true ∧
    (gFastWave.runSched fourSpawns).spawnDelay = 500 ∧
    ¬ (gFastWave.runSched fourSpawns).spawnDelay < gFastWave.spawnDelay := by
  norm_num [gFastWave, fourSpawns, mkGame, mkLane, Game.startWave, noOptions,
    Game.countOnslaughts, Game.runSched, Game.applySchedOp, Game.opFiresOnslaught,
    Game.spawnNextHero, Game.spawnHeroInLane, Game.getWaveScaling, Game.triggerOnslaught,
    mkUnit, Lane.addHero, List.range_succ, List.getD, List.replicate_succ]

/-- **C5** (amended). Within any single wave — starting from the state
left by `startWave` (both onslaught flags false) — any interleaving of
`checkForOnslaught` evaluations and `spawnNextHero` timer expiries invokes
`triggerOnslaught` at most once; and when it fires, `heroesInWave` and
`heroesRemaining` each increase by `⌈heroesInWave × 2⌉ = 2 × heroesInWave`
(default multiplier 2) and the spawn delay is set to the fixed onslaught
value, 400 ms on boss waves and 500 ms otherwise (not always a
shortening: an explicitly overridden smaller delay is lengthened). -/
theorem onslaught_at_most_once (g : Game) (ops : List SchedOp)
    (h1 : g.onslaughtTriggered = false) (h2 : g.onslaughtComplete = false) :
    Game.countOnslaughts g ops ≤ 1 ∧
    ∀ s : Game,
      (s.triggerOnslaught).heroesInWave = s.heroesInWave + 2 * s.heroesInWave ∧
      (s.triggerOnslaught).heroesRemaining = s.heroesRemaining + 2 * s.heroesInWave ∧
      (s.triggerOnslaught).spawnDelay = (if s.bossWave then (400 : ℚ) else 500) ∧
      (s.triggerOnslaught).onslaughtTriggered = true := by
  refine ⟨countOnslaughts_le_one ops g h1 h2, ?_⟩
  intro s
  have hceil : Nat.ceil ((s.heroesInWave : ℚ) * 2) = 2 * s.heroesInWave := by
    rw [show ((s.heroesInWave : ℚ) * 2) = ((2 * s.heroesInWave : ℕ) : ℚ) by push_cast; ring,
      Nat.ceil_natCast]
  refine ⟨?_, ?_, ?_, ?_⟩ <;> simp [Game.triggerOnslaught, hceil]

/-- Witness for `onslaught_at_most_once`: the wave state `gFastWave`
satisfies the two flag hypotheses, and along the concrete trace
`fourSpawns` the onslaught count is indeed at most one. -/
theorem onslaught_at_most_once_witness :
    gFastWave.onslaughtTriggered = false ∧
    gFastWave.onslaughtComplete = false ∧
    Game.countOnslaughts gFastWave fourSpawns ≤ 1 := by
  have ht : gFastWave.onslaughtTriggered = false := by
    norm_num [gFastWave, Game.startWave, noOptions, mkGame]
  have hc : gFastWave.onslaughtComplete = false := by
    norm_num [gFastWave, Game.startWave, noOptions, mkGame]
  exact ⟨ht, hc, (onslaught_at_most_once gFastWave fourSpawns ht hc).1⟩

/-- **C6** (amended). For every wave start without explicit overrides:
`startWave` increments the wave number by 1; flags boss-wave exactly when
the new wave number is divisible by 5; the hero count is
`10 + 5 × waveNumber`, scaled to `⌊(10 + 5 × waveNumber) × 1.5⌋`
(floored, e.g. 52 on wave 5) on boss waves; the spawn delay is
`max(300, 1000 − 20 × waveNumber)` ms on non-boss waves and the fixed
700 ms on boss waves (which is *below* the formula value for the
reachable boss waves); and both onslaught flags are reset to false. -/
theorem startWave_default_spec (g : Game) :
    ((g.startWave noOptions).waveNumber = g.waveNumber + 1) ∧
    ((g.startWave noOptions).bossWave = decide ((g.waveNumber + 1) % 5 = 0)) ∧
    ((g.startWave noOptions).heroesInWave =
      if (g.waveNumber + 1) % 5 = 0 then (30 + 15 * (g.waveNumber + 1)) / 2
      else 10 + 5 * (g.waveNumber + 1)) ∧
    ((g.startWave noOptions).heroesRemaining = (g.startWave noOptions).heroesInWave) ∧
    ((g.startWave noOptions).spawnDelay =
      if (g.waveNumber + 1) % 5 = 0 then (700 : ℚ)
      else max 300 (1000 - ((g.waveNumber + 1 : ℕ) : ℚ) * 20)) ∧
    ((g.startWave noOptions).onslaughtTriggered = false) ∧
    ((g.startWave noOptions).onslaughtComplete = false) := by
  have key : ∀ n : ℕ,
      ((10:ℚ) + ((n:ℚ) + 1) * 5) * (3/2) = ((30 + 15 * (n+1) : ℕ) : ℚ) / ((2:ℕ) : ℚ) := by
    intro n; push_cast; ring
  by_cases h5 : (g.waveNumber + 1) % 5 = 0
  · simp [Game.startWave, noOptions, Game.calculateHeroCount, h5]
    rw [key g.waveNumber, Nat.floor_div_nat, Nat.floor_natCast]
  · simp [Game.startWave, noOptions, Game.calculateHeroCount, h5]
    omega

/-- **C4** (amended). Evaluating `checkGameOver` from a not-yet-ended
state: if any attacker's position is ≤ 0 the state becomes ended-as-loss
(`gameOver` true, `victory` false), regardless of the scheduler sub-state;
otherwise the state becomes ended-as-win exactly when the wave number has
reached 10 and no live attackers remain in any lane — attackers of the
current wave not yet spawned (`heroesRemaining > 0`) do not prevent the
win. -/
theorem checkGameOver_spec (g : Game) (hgo : g.gameOver = false) :
    (lossCondition g →
      (g.checkGameOver).gameOver = true ∧ (g.checkGameOver).victory = false) ∧
    (¬ lossCondition g →
      (((g.checkGameOver).gameOver = true ∧ (g.checkGameOver).victory = true) ↔
        (10 ≤ g.waveNumber ∧ ∀ lane ∈ g.lanes, lane.heroes = []))) := by
  have hb : (g.lanes.any (fun lane => lane.heroes.any (fun hero => decide (hero.position ≤ 0)))) = true
      ↔ lossCondition g := by
    simp [lossCondition]
  constructor
  · intro hl
    have hbt := hb.mpr hl
    simp [Game.checkGameOver, hbt]
  · intro hl
    have hbf : (g.lanes.any (fun lane => lane.heroes.any (fun hero => decide (hero.position ≤ 0)))) = false := by
      cases hx : (g.lanes.any (fun lane => lane.heroes.any (fun hero => decide (hero.position ≤ 0)))) with
      | false => rfl
      | true => exact absurd (hb.mp hx) hl
    by_cases h10 : 10 ≤ g.waveNumber
    · by_cases hall : (g.lanes.any (fun lane => !lane.heroes.isEmpty)) = true
      · have hne : ¬ ∀ lane ∈ g.lanes, lane.heroes = [] := by
          simp only [List.any_eq_true] at hall
          obtain ⟨lane, hlane, hle⟩ := hall
          intro hforall
          have := hforall lane hlane
          simp [this] at hle
        simp [Game.checkGameOver, hbf, Game.areAllHeroesDead, hall, hgo, hne]
      · have hallf : (g.lanes.any (fun lane => !lane.heroes.isEmpty)) = false := by
          cases hx : (g.lanes.any (fun lane => !lane.heroes.isEmpty)) with
          | false => rfl
          | true => exact absurd hx hall
        have hemp : ∀ lane ∈ g.lanes, lane.heroes = [] := by
          intro lane hlane
          have := List.any_eq_false.mp hallf lane hlane
          simpa using this
        simp [Game.checkGameOver, hbf, Game.areAllHeroesDead, hallf, h10]
        exact hemp
    · have h10' : ¬ 10 ≤ g.waveNumber := h10
      simp [Game.checkGameOver, hbf, hgo, h10']

/-- A game with an attacker that has reached the boundary of lane 0. -/
def gLoss : Game :=
  { mkGame with lanes := [{ mkLane 0 10 with heroes := [mkUnit UnitKind.militiant 0 0 1] }],
                laneCount := 1 }

/-- Witness for `checkGameOver_spec`: on the concrete state `gLoss` (one
attacker at position 0) the hypotheses hold and the evaluation ends the
game as a loss. -/
theorem checkGameOver_spec_witness :
    gLoss.gameOver = false ∧
    (gLoss.checkGameOver).gameOver = true ∧
    (gLoss.checkGameOver).victory = false := by
  have hloss : lossCondition gLoss := by
    norm_num [lossCondition, gLoss, mkLane, mkUnit]
  exact ⟨rfl, ((checkGameOver_spec gLoss rfl).1 hloss).1,
    ((checkGameOver_spec gLoss rfl).1 hloss).2⟩

lemma canPlaceAt_iff (l : Lane) (ti : Int) :
    l.canPlaceAt ti = true ↔
      0 ≤ ti ∧ ti < (l.tiles.length : Int) ∧ l.tiles.getD ti.toNat none = none := by
  constructor
  · intro h
    by_cases hb : ti < 0 ∨ (l.tiles.length : Int) ≤ ti
    · rw [Lane.canPlaceAt, if_pos hb] at h
      exact absurd h (by simp)
    · push_neg at hb
      rw [Lane.canPlaceAt, if_neg (by push_neg; exact hb)] at h
      exact ⟨hb.1, hb.2, Option.isNone_iff_eq_none.mp h⟩
  · rintro ⟨h0, hlt, hnone⟩
    rw [Lane.canPlaceAt, if_neg (by push_neg; exact ⟨h0, hlt⟩)]
    simp only [Option.isNone_iff_eq_none]
    exact hnone

lemma placeMinion_success (l : Lane) (ti : Int) (m : Unit)
    (h0 : 0 ≤ ti) (hlt : ti < (l.tiles.length : Int))
    (hnone : l.tiles.getD ti.toNat none = none) :
    (l.placeMinion m ti).2 = true ∧
    (l.placeMinion m ti).1 =
      { l with tiles := l.tiles.set ti.toNat (some m), minions := l.minions ++ [m] } := by
  have hcan : l.canPlaceAt ti = true := (canPlaceAt_iff l ti).mpr ⟨h0, hlt, hnone⟩
  have hlt' : ti.toNat < l.tiles.length := by omega
  have hget : l.tiles.get? ti.toNat = some none := by
    rw [List.getD_eq_getElem?_getD, List.getElem?_eq_getElem hlt'] at hnone
    rw [List.get?_eq_getElem?, List.getElem?_eq_getElem hlt']
    simpa using hnone
  rw [Lane.placeMinion, if_pos hcan, hget]
  exact ⟨rfl, rfl⟩

/-- **C8.** For every lane and every integer tile index: `canPlaceAt` is
true iff `0 ≤ tileIndex < tile count` and that tile holds no defender; and
a successful `placeMinion` (of a minion not already in the lane, i.e. a
fresh object) makes the tile non-empty and the lane's defender collection
contain exactly one reference to the placed defender. -/
theorem lane_canPlaceAt_placeMinion (l : Lane) (ti : Int) (m : Unit)
    (hm : m ∉ l.minions) :
    (l.canPlaceAt ti = true ↔
      0 ≤ ti ∧ ti < (l.tiles.length : Int) ∧ l.tiles.getD ti.toNat none = none) ∧
    (l.canPlaceAt ti = true →
      (l.placeMinion m ti).2 = true ∧
      (l.placeMinion m ti).1.tiles.getD ti.toNat none = some m ∧
      (l.placeMinion m ti).1.minions.count m = 1) := by
  refine ⟨canPlaceAt_iff l ti, fun hcan => ?_⟩
  obtain ⟨h0, hlt, hnone⟩ := (canPlaceAt_iff l ti).mp hcan
  obtain ⟨hok, heq⟩ := placeMinion_success l ti m h0 hlt hnone
  have hlt' : ti.toNat < l.tiles.length := by omega
  refine ⟨hok, ?_, ?_⟩
  · rw [heq]
    show (l.tiles.set ti.toNat (some m)).getD ti.toNat none = some m
    rw [List.getD_eq_getElem?_getD]
    rw [List.getElem?_set_eq_of_lt (some m) (by simpa using hlt')]
    rfl
  · rw [heq]
    show (l.minions ++ [m]).count m = 1
    simp only [List.count_append]
    rw [List.count_eq_zero.mpr hm]
    simp


/-- The empty 10-tile lane 0 and a fresh Ashling used by the placement
witness. -/
def laneW : Lane := mkLane 0 10

/-- A fresh Ashling object for the placement witness. -/
def minionW : Unit := mkUnit UnitKind.ashling 0 2 1

/-- Witness for `lane_canPlaceAt_placeMinion`: on the concrete empty lane
`laneW`, tile 2 accepts a placement and afterwards holds the minion, which
occurs exactly once in the lane's defender collection. -/
theorem lane_canPlaceAt_placeMinion_witness :
    minionW ∉ laneW.minions ∧
    laneW.canPlaceAt 2 = true ∧
    (laneW.placeMinion minionW 2).2 = true ∧
    (laneW.placeMinion minionW 2).1.tiles.getD (2 : Int).toNat none = some minionW ∧
    (laneW.placeMinion minionW 2).1.minions.count minionW = 1 := by
  have hm : minionW ∉ laneW.minions := by simp [laneW, mkLane]
  have hcan : laneW.canPlaceAt 2 = true := by
    norm_num [laneW, mkLane, Lane.canPlaceAt, List.replicate_succ]
    rfl
  have h := (lane_canPlaceAt_placeMinion laneW 2 minionW hm).2 hcan
  exact ⟨hm, hcan, h.1, h.2.1, h.2.2⟩

/-- **C1.** For every placement request on a well-formed game (`laneCount`
lanes of `tileCount` tiles, as built by the constructor): if the request
is invalid in the claim's sense (`invalidPlacement`: out-of-bounds lane or
tile index, no defender type selected, unknown defender type, current
Daen less than the type's cost, or occupied tile) then `placeMinionAt`
returns `false` and leaves the whole game state — in particular the Daen
scalar and every tile — unchanged; if it is valid, `placeMinionAt`
returns `true` and decreases Daen by exactly the placed type's cost. -/
theorem placeMinionAt_spec (g : Game) (laneIndex tileIndex : Int) (newId : Nat)
    (hlen : g.lanes.length = g.laneCount)
    (htiles : ∀ lane ∈ g.lanes, lane.tiles.length = g.tileCount) :
    (invalidPlacement g laneIndex tileIndex →
      g.placeMinionAt laneIndex tileIndex newId = (g, false)) ∧
    (¬ invalidPlacement g laneIndex tileIndex →
      ∃ t k, g.selectedMinionType = some t ∧ MinionRegistry t = some k ∧
        (g.placeMinionAt laneIndex tileIndex newId).2 = true ∧
        (g.placeMinionAt laneIndex tileIndex newId).1.daen = g.daen - minionCost k) := by
  constructor
  · intro hinv
    have hfalse : g.canPlaceMinion laneIndex tileIndex = false := by
      by_cases hb : laneIndex < 0 ∨ (g.laneCount : Int) ≤ laneIndex ∨
          tileIndex < 0 ∨ (g.tileCount : Int) ≤ tileIndex
      · rw [Game.canPlaceMinion, if_pos hb]
      · rw [Game.canPlaceMinion, if_neg hb]
        push_neg at hb
        obtain ⟨hb1, hb2, hb3, hb4⟩ := hb
        rcases hinv with h | h | h | h | h | h | h | h
        · omega
        · omega
        · omega
        · omega
        · rw [h]
        · obtain ⟨t, hsel, hreg⟩ := h
          simp only [hsel, hreg]
        · obtain ⟨t, k, hsel, hreg, hdaen⟩ := h
          simp only [hsel, hreg]
          rw [if_pos hdaen]
        · obtain ⟨lane, hlane, u, htile⟩ := h
          rcases hsel : g.selectedMinionType with _ | t
          · rfl
          · rcases hreg : MinionRegistry t with _ | k
            · simp only [hsel, hreg]
            · simp only [hsel, hreg]
              by_cases hd : g.daen < minionCost k
              · rw [if_pos hd]
              · rw [if_neg hd]
                simp only [hlane, htile, Option.isNone_some]
    rw [Game.placeMinionAt, hfalse]
    simp
  · intro hval
    rw [invalidPlacement] at hval
    push_neg at hval
    obtain ⟨hb1, hb2, hb3, hb4, hsel0, hreg0, hdaen0, hocc0⟩ := hval
    rcases hselv : g.selectedMinionType with _ | t
    · exact absurd hselv hsel0
    rcases hregv : MinionRegistry t with _ | k
    · exact absurd hregv (hreg0 t hselv)
    have hd : ¬ g.daen < minionCost k := not_lt.mpr (hdaen0 t k hselv hregv)
    have hll : laneIndex.toNat < g.lanes.length := by omega
    have hlane : g.lanes.get? laneIndex.toNat = some (g.lanes.get ⟨laneIndex.toNat, hll⟩) :=
      List.get?_eq_get hll
    have hmem : g.lanes.get ⟨laneIndex.toNat, hll⟩ ∈ g.lanes := List.get_mem _ _ _
    have htl : (g.lanes.get ⟨laneIndex.toNat, hll⟩).tiles.length = g.tileCount :=
      htiles _ hmem
    have htt : tileIndex.toNat < (g.lanes.get ⟨laneIndex.toNat, hll⟩).tiles.length := by omega
    have htile : (g.lanes.get ⟨laneIndex.toNat, hll⟩).tiles.get? tileIndex.toNat =
        some ((g.lanes.get ⟨laneIndex.toNat, hll⟩).tiles.get ⟨tileIndex.toNat, htt⟩) :=
      List.get?_eq_get htt
    rcases htv : (g.lanes.get ⟨laneIndex.toNat, hll⟩).tiles.get ⟨tileIndex.toNat, htt⟩ with _ | u
    · rw [htv] at htile
      have hgetD : (g.lanes.get ⟨laneIndex.toNat, hll⟩).tiles.getD tileIndex.toNat none = none := by
        rw [List.getD_eq_getElem?_getD, List.getElem?_eq_getElem htt]
        simp only [Option.getD_some]
        rw [List.get_eq_getElem] at htv
        exact htv
      have hcan : g.canPlaceMinion laneIndex tileIndex = true := by
        rw [Game.canPlaceMinion, if_neg (by push_neg; exact ⟨hb1, hb2, hb3, hb4⟩)]
        simp only [hselv, hregv]
        rw [if_neg hd]
        simp only [hlane, htile, Option.isNone_none]
      obtain ⟨hok, heq⟩ := placeMinion_success (g.lanes.get ⟨laneIndex.toNat, hll⟩) tileIndex
        (mkUnit k laneIndex.toNat (tileIndex : ℚ) newId) hb3 (by omega) hgetD
      refine ⟨t, k, rfl, hregv, ?_, ?_⟩
      · rw [Game.placeMinionAt, if_pos hcan]
        simp only [hselv, hregv, hlane, hok, if_true]
      · rw [Game.placeMinionAt, if_pos hcan]
        simp only [hselv, hregv, hlane, hok, if_true]
    · exfalso
      rw [htv] at htile
      exact hocc0 _ hlane u htile

/-- A fresh game with the Gravelim defender type (cost 5) selected. -/
def gSelected : Game := { mkGame with selectedMinionType := some ("gravelim") }

/-- Witness for `placeMinionAt_spec`: on the concrete game `gSelected`
(Daen 10, Gravelim selected, cost 5) the hypotheses hold, the placement at
lane 0 / tile 0 is valid, and it succeeds leaving Daen = 5. -/
theorem placeMinionAt_spec_witness :
    gSelected.daen = 10 ∧
    gSelected.lanes.length = gSelected.laneCount ∧
    (gSelected.placeMinionAt 0 0 1).2 = true ∧
    (gSelected.placeMinionAt 0 0 1).1.daen = 5 := by
  have hlen : gSelected.lanes.length = gSelected.laneCount := by
    norm_num [gSelected, mkGame, List.range_succ]
  have htiles : ∀ lane ∈ gSelected.lanes, lane.tiles.length = gSelected.tileCount := by
    intro lane hlane
    norm_num [gSelected, mkGame, mkLane, List.range_succ] at hlane
    rcases hlane with h|h|h|h|h|h|h <;> rw [h] <;> rfl
  have hval : ¬ invalidPlacement gSelected 0 0 := by
    intro h
    rcases h with h|h|h|h|h|h|h|h
    · exact absurd h (by norm_num)
    · norm_num [gSelected, mkGame] at h
    · exact absurd h (by norm_num)
    · norm_num [gSelected, mkGame] at h
    · exact absurd h (by simp [gSelected, mkGame])
    · obtain ⟨t, hsel, hreg⟩ := h
      have ht : t = "gravelim" := by
        have h2 : (some ("gravelim") : Option String) = some t := hsel
        exact ((Option.some.injEq _ _).mp h2).symm
      rw [ht] at hreg
      exact absurd hreg (by simp [MinionRegistry])
    · obtain ⟨t, k, hsel, hreg, hd⟩ := h
      have ht : t = "gravelim" := by
        have h2 : (some ("gravelim") : Option String) = some t := hsel
        exact ((Option.some.injEq _ _).mp h2).symm
      rw [ht] at hreg
      have hk : k = UnitKind.gravelim := by
        rw [show MinionRegistry ("gravelim") = some UnitKind.gravelim from rfl] at hreg
        exact ((Option.some.injEq _ _).mp hreg).symm
      rw [hk] at hd
      norm_num [gSelected, mkGame, minionCost] at hd
    · obtain ⟨lane, hlane, u, htile⟩ := h
      have hl0 : gSelected.lanes.get? (0 : Int).toNat = some (mkLane 0 10) := by
        norm_num [gSelected, mkGame, List.range_succ]
      rw [hl0] at hlane
      have : lane = mkLane 0 10 := ((Option.some.injEq _ _).mp hlane).symm
      rw [this] at htile
      have ht0 : (mkLane 0 10).tiles.get? (0 : Int).toNat = some none := by
        norm_num [mkLane, List.replicate_succ]
      rw [ht0] at htile
      simp at htile
  obtain ⟨-, hv⟩ := placeMinionAt_spec gSelected 0 0 1 hlen htiles
  obtain ⟨t, k, hsel, hreg, hok, hdaen⟩ := hv hval
  have ht : t = "gravelim" := by
    have h2 : (some ("gravelim") : Option String) = some t := hsel
    exact ((Option.some.injEq _ _).mp h2).symm
  rw [ht] at hreg
  have hk : k = UnitKind.gravelim := by
    rw [show MinionRegistry ("gravelim") = some UnitKind.gravelim from rfl] at hreg
    exact ((Option.some.injEq _ _).mp hreg).symm
  refine ⟨rfl, hlen, hok, ?_⟩
  rw [hdaen, hk]
  norm_num [gSelected, mkGame, minionCost]

/-- Invariant of the `findTarget` loop: either the accumulator survives the
whole scan (and every eligible candidate is at least as far as it), or the
scan ends on some candidate `u` of the container that is eligible, beats
the initial accumulator, is no farther than any eligible candidate, and is
strictly closer than every eligible candidate before it. -/
lemma findTargetAux_spec (pos range : ℚ) :
    ∀ (cs : List Unit) (best : Option (Unit × ℚ)),
      (findTargetAux pos range cs best = best ∧
        ∀ v ∈ cs, distTo pos v ≤ range → ∃ p, best = some p ∧ p.2 ≤ distTo pos v) ∨
      (∃ u l1 l2, cs = l1 ++ u :: l2 ∧
        findTargetAux pos range cs best = some (u, distTo pos u) ∧
        distTo pos u ≤ range ∧
        (∀ p, best = some p → distTo pos u < p.2) ∧
        (∀ v ∈ cs, distTo pos v ≤ range → distTo pos u ≤ distTo pos v) ∧
        (∀ v ∈ l1, distTo pos v ≤ range → distTo pos u < distTo pos v)) := by
  intro cs
  induction cs with
  | nil =>
    intro best
    left
    exact ⟨rfl, by simp⟩
  | cons u rest ih =>
    intro best
    rcases best with _ | p
    · by_cases hd : distTo pos u ≤ range
      · have hstep : findTargetAux pos range (u :: rest) none =
            findTargetAux pos range rest (some (u, distTo pos u)) := by
          simp [findTargetAux, hd]
        rcases ih (some (u, distTo pos u)) with ⟨heq, hmin⟩ |
          ⟨u', l1', l2', hsplit, heq, hel, hbest, hmin, hfirst⟩
        · right
          refine ⟨u, [], rest, rfl, ?_, hd, ?_, ?_, ?_⟩
          · rw [hstep, heq]
          · intro q hq; exact absurd hq (by simp)
          · intro v hv hvle
            rcases List.mem_cons.mp hv with rfl | hv'
            · exact le_refl _
            · obtain ⟨q, hq, hqle⟩ := hmin v hv' hvle
              have : q = (u, distTo pos u) := by
                simpa using hq.symm
              rw [this] at hqle
              exact hqle
          · intro v hv; exact absurd hv (by simp)
        · right
          refine ⟨u', u :: l1', l2', by simp [hsplit], ?_, hel, ?_, ?_, ?_⟩
          · rw [hstep, heq]
          · intro q hq; exact absurd hq (by simp)
          · intro v hv hvle
            rcases List.mem_cons.mp hv with rfl | hv'
            · exact le_of_lt (hbest (v, distTo pos v) rfl)
            · exact hmin v hv' hvle
          · intro v hv hvle
            rcases List.mem_cons.mp hv with rfl | hv'
            · exact hbest (v, distTo pos v) rfl
            · exact hfirst v hv' hvle
      · have hstep : findTargetAux pos range (u :: rest) none =
            findTargetAux pos range rest none := by
          simp [findTargetAux, hd]
        rcases ih none with ⟨heq, hmin⟩ |
          ⟨u', l1', l2', hsplit, heq, hel, hbest, hmin, hfirst⟩
        · left
          refine ⟨by rw [hstep, heq], ?_⟩
          intro v hv hvle
          rcases List.mem_cons.mp hv with rfl | hv'
          · exact absurd hvle hd
          · exact hmin v hv' hvle
        · right
          refine ⟨u', u :: l1', l2', by simp [hsplit], ?_, hel, hbest, ?_, ?_⟩
          · rw [hstep, heq]
          · intro v hv hvle
            rcases List.mem_cons.mp hv with rfl | hv'
            · exact absurd hvle hd
            · exact hmin v hv' hvle
          · intro v hv hvle
            rcases List.mem_cons.mp hv with rfl | hv'
            · exact absurd hvle hd
            · exact hfirst v hv' hvle
    · by_cases hd : distTo pos u ≤ range ∧ distTo pos u < p.2
      · have hstep : findTargetAux pos range (u :: rest) (some p) =
            findTargetAux pos range rest (some (u, distTo pos u)) := by
          simp [findTargetAux, hd]
        rcases ih (some (u, distTo pos u)) with ⟨heq, hmin⟩ |
          ⟨u', l1', l2', hsplit, heq, hel, hbest, hmin, hfirst⟩
        · right
          refine ⟨u, [], rest, rfl, ?_, hd.1, ?_, ?_, ?_⟩
          · rw [hstep, heq]
          · intro q hq
            have : q = p := by simpa using hq.symm
            rw [this]
            exact hd.2
          · intro v hv hvle
            rcases List.mem_cons.mp hv with rfl | hv'
            · exact le_refl _
            · obtain ⟨q, hq, hqle⟩ := hmin v hv' hvle
              have : q = (u, distTo pos u) := by simpa using hq.symm
              rw [this] at hqle
              exact hqle
          · intro v hv; exact absurd hv (by simp)
        · right
          refine ⟨u', u :: l1', l2', by simp [hsplit], ?_, hel, ?_, ?_, ?_⟩
          · rw [hstep, heq]
          · intro q hq
            have : q = p := by simpa using hq.symm
            rw [this]
            exact lt_trans (hbest (u, distTo pos u) rfl) hd.2
          · intro v hv hvle
            rcases List.mem_cons.mp hv with rfl | hv'
            · exact le_of_lt (hbest (v, distTo pos v) rfl)
            · exact hmin v hv' hvle
          · intro v hv hvle
            rcases List.mem_cons.mp hv with rfl | hv'
            · exact hbest (v, distTo pos v) rfl
            · exact hfirst v hv' hvle
      · have hstep : findTargetAux pos range (u :: rest) (some p) =
            findTargetAux pos range rest (some p) := by
          simp only [findTargetAux]
          rw [if_neg (by simpa using hd)]
        have hup : distTo pos u ≤ range → p.2 ≤ distTo pos u := by
          intro hle
          by_contra hgt
          exact hd ⟨hle, not_le.mp hgt⟩
        rcases ih (some p) with ⟨heq, hmin⟩ |
          ⟨u', l1', l2', hsplit, heq, hel, hbest, hmin, hfirst⟩
        · left
          refine ⟨by rw [hstep, heq], ?_⟩
          intro v hv hvle
          rcases List.mem_cons.mp hv with rfl | hv'
          · exact ⟨p, rfl, hup hvle⟩
          · exact hmin v hv' hvle
        · right
          refine ⟨u', u :: l1', l2', by simp [hsplit], ?_, hel, hbest, ?_, ?_⟩
          · rw [hstep, heq]
          · intro v hv hvle
            rcases List.mem_cons.mp hv with rfl | hv'
            · exact le_trans (le_of_lt (hbest p rfl)) (hup hvle)
            · exact hmin v hv' hvle
          · intro v hv hvle
            rcases List.mem_cons.mp hv with rfl | hv'
            · exact lt_of_lt_of_le (hbest p rfl) (hup hvle)
            · exact hfirst v hv' hvle

/-- The targeting scan satisfies the nearest-eligible/first-on-tie
contract on every container. -/
lemma findTargetIn_spec (pos range : ℚ) (cs : List Unit) :
    isNearestFirst pos range cs (findTargetIn pos range cs) := by
  rcases findTargetAux_spec pos range cs none with ⟨heq, hprop⟩ |
    ⟨u, l1, l2, hsplit, heq, hel, _, hmin, hfirst⟩
  · rw [findTargetIn, heq]
    intro v hv hle
    obtain ⟨p, hp, -⟩ := hprop v hv hle
    exact absurd hp (by simp)
  · rw [findTargetIn, heq]
    exact ⟨l1, l2, hsplit, hel, hmin, hfirst⟩

/-- **C3.** For every unit and every ordering of the opposing collection in
its lane: `findTarget` (both the minion version scanning `lane.heroes` and
the hero version scanning `lane.minions`) returns a unit at distance ≤ the
searcher's `attackRange` with the smallest such distance (and `none` only
when no such unit exists), and among equidistant eligible candidates it
returns the one encountered first in iteration order; the result depends
only on the container ordering, so two runs on the same ordering return
the same target (the scan is deterministic, with no randomness). -/
theorem findTarget_nearest_first (a : Unit) (lane : Lane) :
    isNearestFirst a.position a.attackRange lane.heroes (Minion.findTarget a lane) ∧
    isNearestFirst a.position a.attackRange lane.minions (Hero.findTarget a lane) ∧
    (∀ lane' : Lane, lane'.heroes = lane.heroes →
      Minion.findTarget a lane' = Minion.findTarget a lane) ∧
    (∀ lane' : Lane, lane'.minions = lane.minions →
      Hero.findTarget a lane' = Hero.findTarget a lane) :=
  ⟨findTargetIn_spec _ _ _, findTargetIn_spec _ _ _,
   fun _ h => by rw [Minion.findTarget, Minion.findTarget, h],
   fun _ h => by rw [Hero.findTarget, Hero.findTarget, h]⟩

/-- A hero at distance 1 left of the scanning unit (tie candidate 1). -/
def heroA : Unit := mkUnit UnitKind.militiant 0 4 11

/-- A hero at distance 1 right of the scanning unit (tie candidate 2). -/
def heroB : Unit := mkUnit UnitKind.militiant 0 6 12

/-- An Ashling (attack range 5) scanning from position 5. -/
def attackerT : Unit := mkUnit UnitKind.ashling 0 5 10

/-- A lane holding the two equidistant heroes, `heroA` first. -/
def laneT : Lane := { mkLane 0 10 with heroes := [heroA, heroB] }

/-- Witness for `findTarget_nearest_first`: with two equidistant eligible
heroes the scan satisfies the contract and returns the first, `heroA`. -/
theorem findTarget_nearest_first_witness :
    isNearestFirst attackerT.position attackerT.attackRange laneT.heroes
      (Minion.findTarget attackerT laneT) ∧
    Minion.findTarget attackerT laneT = some heroA := by
  refine ⟨(findTarget_nearest_first attackerT laneT).1, ?_⟩
  norm_num [Minion.findTarget, findTargetIn, findTargetAux, distTo, laneT, heroA, heroB,
    attackerT, mkUnit, mkLane, abs]

/-- **C10.** For every attacker tick (`Hero.update`): if a defender is
within the attacker's `attackRange` in its lane, the attacker's position
is unchanged that tick — even when its `attackCooldown` is still positive,
in which case it neither attacks nor moves; an attacker never both attacks
and moves in the same tick (an attack leaves the position unchanged), and
movement occurs only when no defender is in range. -/
theorem hero_update_spec (h : Unit) (lane : Lane) (dt : ℚ) (tileCount : Nat) :
    ((∃ m ∈ lane.minions, |h.position - m.position| ≤ h.attackRange) →
      (Hero.update h lane dt tileCount).1.position = h.position) ∧
    ((Hero.update h lane dt tileCount).2.isSome = true →
      (Hero.update h lane dt tileCount).1.position = h.position) ∧
    ((Hero.update h lane dt tileCount).1.position ≠ h.position →
      (Hero.update h lane dt tileCount).2 = none ∧
      ∀ m ∈ lane.minions, ¬ |h.position - m.position| ≤ h.attackRange) ∧
    (0 < h.attackCooldown → dt < h.attackCooldown →
      (∃ m ∈ lane.minions, |h.position - m.position| ≤ h.attackRange) →
      (Hero.update h lane dt tileCount).2 = none ∧
      (Hero.update h lane dt tileCount).1.position = h.position) := by
  by_cases hcd0 : 0 < h.attackCooldown
  case pos =>
    have hnone_elim : ∀ m ∈ lane.minions, |h.position - m.position| ≤ h.attackRange →
        Hero.findTarget { h with attackCooldown := h.attackCooldown - dt } lane ≠ none := by
      intro m hm hle hft
      have hs := findTargetIn_spec h.position h.attackRange lane.minions
      have heq : Hero.findTarget { h with attackCooldown := h.attackCooldown - dt } lane =
          findTargetIn h.position h.attackRange lane.minions := rfl
      rw [heq] at hft
      rw [hft] at hs
      exact hs m hm hle
    refine ⟨?_, ?_, ?_, ?_⟩
    · rintro ⟨m, hm, hle⟩
      rcases hft : Hero.findTarget { h with attackCooldown := h.attackCooldown - dt } lane
        with _ | tgt
      · exact absurd hft (hnone_elim m hm hle)
      · simp only [Hero.update, if_pos hcd0, hft]
        split_ifs <;> rfl
    · intro hsome
      rcases hft : Hero.findTarget { h with attackCooldown := h.attackCooldown - dt } lane
        with _ | tgt
      · simp only [Hero.update, if_pos hcd0, hft] at hsome
        simp at hsome
      · simp only [Hero.update, if_pos hcd0, hft]
        split_ifs <;> rfl
    · intro hmoved
      rcases hft : Hero.findTarget { h with attackCooldown := h.attackCooldown - dt } lane
        with _ | tgt
      · simp only [Hero.update, if_pos hcd0, hft]
        exact ⟨by trivial, fun m hm hle => hnone_elim m hm hle hft⟩
      · exfalso
        simp only [Hero.update, if_pos hcd0, hft] at hmoved
        split_ifs at hmoved <;> simp at hmoved
    · intro _ hdtlt hex
      obtain ⟨m, hm, hle⟩ := hex
      rcases hft : Hero.findTarget { h with attackCooldown := h.attackCooldown - dt } lane
        with _ | tgt
      · exact absurd hft (hnone_elim m hm hle)
      · simp only [Hero.update, if_pos hcd0, hft]
        have hpos2 : ¬ h.attackCooldown - dt ≤ 0 := by push_neg; linarith
        rw [if_neg hpos2]
        exact ⟨rfl, rfl⟩
  case neg =>
    have hnone_elim : ∀ m ∈ lane.minions, |h.position - m.position| ≤ h.attackRange →
        Hero.findTarget h lane ≠ none := by
      intro m hm hle hft
      have hs := findTargetIn_spec h.position h.attackRange lane.minions
      have heq : Hero.findTarget h lane =
          findTargetIn h.position h.attackRange lane.minions := rfl
      rw [heq] at hft
      rw [hft] at hs
      exact hs m hm hle
    refine ⟨?_, ?_, ?_, ?_⟩
    · rintro ⟨m, hm, hle⟩
      rcases hft : Hero.findTarget h lane with _ | tgt
      · exact absurd hft (hnone_elim m hm hle)
      · simp only [Hero.update, if_neg hcd0, hft]
        split_ifs <;> rfl
    · intro hsome
      rcases hft : Hero.findTarget h lane with _ | tgt
      · simp only [Hero.update, if_neg hcd0, hft] at hsome
        simp at hsome
      · simp only [Hero.update, if_neg hcd0, hft]
        split_ifs <;> rfl
    · intro hmoved
      rcases hft : Hero.findTarget h lane with _ | tgt
      · simp only [Hero.update, if_neg hcd0, hft]
        exact ⟨by trivial, fun m hm hle => hnone_elim m hm hle hft⟩
      · exfalso
        simp only [Hero.update, if_neg hcd0, hft] at hmoved
        split_ifs at hmoved <;> simp at hmoved
    · intro hcd _ _
      exact absurd hcd hcd0

/-- A Militiant attacker at position 3 with 500 ms of cooldown left. -/
def heroW : Unit := { mkUnit UnitKind.militiant 0 3 21 with attackCooldown := 500 }

/-- A Gnarlroot defender one tile away (within the Militiant's range 1). -/
def defenderW : Unit := mkUnit UnitKind.gnarlroot 0 2 22

/-- A lane holding that defender. -/
def laneU : Lane := { mkLane 0 10 with minions := [defenderW] }

/-- Witness for `hero_update_spec`: with a defender in range and 500 ms of
cooldown remaining, a 100 ms tick neither attacks nor moves. -/
theorem hero_update_spec_witness :
    (0 : ℚ) < heroW.attackCooldown ∧
    (100 : ℚ) < heroW.attackCooldown ∧
    (Hero.update heroW laneU 100 10).2 = none ∧
    (Hero.update heroW laneU 100 10).1.position = heroW.position := by
  have h1 : (0:ℚ) < heroW.attackCooldown := by norm_num [heroW, mkUnit]
  have h2 : (100:ℚ) < heroW.attackCooldown := by norm_num [heroW, mkUnit]
  have h3 : ∃ m ∈ laneU.minions, |heroW.position - m.position| ≤ heroW.attackRange := by
    refine ⟨defenderW, by simp [laneU], ?_⟩
    norm_num [heroW, defenderW, mkUnit, abs]
  have h4 := (hero_update_spec heroW laneU 100 10).2.2.2 h1 h2 h3
  exact ⟨h1, h2, h4.1, h4.2⟩

/-- `takeDamage` clamps health at 0: the new health is `max 0 (H - amount)`. -/
lemma takeDamage_health (u : Unit) (amount : ℚ) :
    (Unit.takeDamage u amount).1.health = max 0 (u.health - amount) := by
  rw [Unit.takeDamage]
  split_ifs with hle
  · show (0:ℚ) = max 0 (u.health - amount)
    exact (max_eq_left hle).symm
  · show u.health - amount = max 0 (u.health - amount)
    exact (max_eq_right (le_of_lt (not_le.mp hle))).symm

/-- `takeDamage` only mutates `health`: identity and position survive. -/
lemma takeDamage_id_pos (u : Unit) (amount : ℚ) :
    (Unit.takeDamage u amount).1.id = u.id ∧
    (Unit.takeDamage u amount).1.position = u.position := by
  rw [Unit.takeDamage]
  split_ifs <;> exact ⟨rfl, rfl⟩

/-- A hero killed by `takeDamage` is removed from its lane's `heroes` list
in the same (synchronous) call, provided its identity occurs at most once
there (fresh ids). -/
lemma heroTakeDamage_removes (g : Game) (u : Unit) (amount rand : ℚ) (lane : Lane)
    (hlane : g.lanes.get? u.lane = some lane)
    (hcountH : lane.heroes.countP (fun x => x.id == u.id) ≤ 1)
    (hdied : (g.heroTakeDamage u amount rand).2.2 = true) :
    ∀ lane', (g.heroTakeDamage u amount rand).1.lanes.get? u.lane = some lane' →
      ∀ x ∈ lane'.heroes, x.id ≠ u.id := by
  intro lane' hlane'
  have hlt : u.lane < g.lanes.length := by
    rcases List.get?_eq_some.mp hlane with ⟨hl, -⟩
    exact hl
  have hid := (takeDamage_id_pos u amount).1
  by_cases hr : (Unit.takeDamage u amount).2 = true
  · simp only [Game.heroTakeDamage, hlane, hr, if_true] at hlane'
    rw [List.get?_eq_getElem?] at hlane'
    rw [List.getElem?_set_eq_of_lt _ (by simpa using hlt)] at hlane'
    have hlv : lane' = (lane.removeHero (Unit.takeDamage u amount).1 rand g.daen).1 := by
      simpa using hlane'.symm
    rw [hlv, Lane.removeHero]
    by_cases hany : lane.heroes.any (fun x => x.id == (Unit.takeDamage u amount).1.id) = true
    · rw [if_pos hany]
      intro x hx
      have := removeFirstById_no_id (Unit.takeDamage u amount).1.id lane.heroes
        (by rw [hid]; exact hcountH) x hx
      rw [hid] at this
      exact this
    · rw [if_neg hany]
      intro x hx
      have := List.any_eq_false.mp (by
        cases hb : lane.heroes.any (fun y => y.id == (Unit.takeDamage u amount).1.id) with
        | false => rfl
        | true => exact absurd hb hany) x hx
      rw [hid] at this
      simpa using this
  · exfalso
    have hrf : (Unit.takeDamage u amount).2 = false := by
      cases hb : (Unit.takeDamage u amount).2 with
      | false => rfl
      | true => exact absurd hb hr
    simp only [Game.heroTakeDamage, hlane, hrf, Bool.false_eq_true, if_false] at hdied

/-- `takeDamage` on a hero no longer present in its lane (already removed
by an earlier death) leaves the game state — daen and all containers —
untouched: `removeHero`'s `indexOf` guard skips the Dreadchant hooks, the
kill-reward roll and the splice. -/
lemma heroTakeDamage_dead_noop (g : Game) (u : Unit) (amount rand : ℚ) (lane : Lane)
    (hlane : g.lanes.get? u.lane = some lane)
    (hnone : ∀ x ∈ lane.heroes, x.id ≠ u.id) :
    (g.heroTakeDamage u amount rand).1 = g := by
  have hid := (takeDamage_id_pos u amount).1
  have hset : g.lanes.set u.lane lane = g.lanes := set_get?_eq _ _ _ hlane
  have hany : lane.heroes.any (fun x => x.id == (Unit.takeDamage u amount).1.id) = false := by
    apply List.any_eq_false.mpr
    intro x hx
    rw [hid]
    simpa using hnone x hx
  by_cases hr : (Unit.takeDamage u amount).2 = true
  · simp only [Game.heroTakeDamage, hlane, hr, if_true, Lane.removeHero, hany,
      Bool.false_eq_true, if_false]
    rw [hset]
  · have hrf : (Unit.takeDamage u amount).2 = false := by
      cases hb : (Unit.takeDamage u amount).2 with
      | false => rfl
      | true => exact absurd hb hr
    have hmap : lane.heroes.map
        (fun x => if x.id == u.id then (Unit.takeDamage u amount).1 else x) = lane.heroes :=
      map_replace_eq_self u.id _ lane.heroes hnone
    simp only [Game.heroTakeDamage, hlane, hrf, Bool.false_eq_true, if_false, hmap]
    rw [hset]

/-- `removeMinion` removes exactly the first identity-matching entry from
the `minions` list (whatever happens on the tile side). -/
lemma removeMinion_minions (l : Lane) (m : Unit) :
    (l.removeMinion m).minions = removeFirstById m.id l.minions := by
  simp only [Lane.removeMinion]
  split
  · split
    · split_ifs <;> rfl
    · rfl
  · rfl

/-- After `removeMinion`, the tile at `⌊position⌋` no longer references the
removed minion's identity. -/
lemma removeMinion_tile (l : Lane) (m : Unit) (hfloor : 0 ≤ Int.floor m.position) :
    ∀ v : Unit, (l.removeMinion m).tiles.getD (Int.floor m.position).toNat none = some v →
      v.id ≠ m.id := by
  intro v hv
  simp only [Lane.removeMinion] at hv
  split_ifs at hv with hb
  · rcases ht : l.tiles.getD (Int.floor m.position).toNat none with _ | x
    · simp only [ht] at hv
      simp at hv
    · by_cases hx : x.id = m.id
      · simp only [ht, if_pos hx] at hv
        have hidx : (Int.floor m.position).toNat < l.tiles.length := by
          rcases hb with ⟨-, hb1⟩
          omega
        rw [List.getD_eq_getElem?_getD,
          List.getElem?_set_eq_of_lt _ (by simpa using hidx)] at hv
        simp at hv
      · simp only [ht, if_neg hx] at hv
        have hveq : x = v := by simpa using hv
        rw [← hveq]
        exact hx
  · exfalso
    push_neg at hb
    have hge : (l.tiles.length : Int) ≤ Int.floor m.position := by
      simpa using hb hfloor
    have hidx : l.tiles.length ≤ (Int.floor m.position).toNat := by omega
    rw [List.getD_eq_getElem?_getD, List.getElem?_eq_none (by simpa using hidx)] at hv
    simp at hv

/-- `removeMinion` of a minion that no container references is a no-op. -/
lemma removeMinion_noop (l : Lane) (m : Unit)
    (hmin : ∀ x ∈ l.minions, x.id ≠ m.id)
    (htile : ∀ t ∈ l.tiles, ∀ v : Unit, t = some v → v.id ≠ m.id) :
    l.removeMinion m = l := by
  have hrm : removeFirstById m.id l.minions = l.minions := removeFirstById_eq_self _ _ hmin
  simp only [Lane.removeMinion, hrm]
  split_ifs with hb
  · rcases ht : l.tiles.getD (Int.floor m.position).toNat none with _ | x
    · simp [ht]
    · have hb1 : Int.floor m.position < (l.tiles.length : Int) := by simpa using hb.2
      have hidx : (Int.floor m.position).toNat < l.tiles.length := by omega
      have hx : x.id ≠ m.id := by
        rw [List.getD_eq_getElem?_getD, List.getElem?_eq_getElem hidx] at ht
        have hmem : l.tiles[(Int.floor m.position).toNat] ∈ l.tiles := List.getElem_mem _
        have hsome : l.tiles[(Int.floor m.position).toNat] = some x := by simpa using ht
        exact htile _ hmem x hsome
      simp [ht, hx]
  · rfl

/-- A minion killed by `takeDamage` is removed from both of its owning
containers (the lane's `minions` list and the tile at `⌊position⌋`) in the
same call. -/
lemma minionTakeDamage_removes (g : Game) (u : Unit) (amount : ℚ) (lane : Lane)
    (hlane : g.lanes.get? u.lane = some lane)
    (hcountM : lane.minions.countP (fun x => x.id == u.id) ≤ 1)
    (hfloor : 0 ≤ Int.floor u.position)
    (hdied : (g.minionTakeDamage u amount).2.2 = true) :
    ∀ lane', (g.minionTakeDamage u amount).1.lanes.get? u.lane = some lane' →
      (∀ x ∈ lane'.minions, x.id ≠ u.id) ∧
      (∀ v : Unit, lane'.tiles.getD (Int.floor u.position).toNat none = some v →
        v.id ≠ u.id) := by
  intro lane' hlane'
  have hlt : u.lane < g.lanes.length := by
    rcases List.get?_eq_some.mp hlane with ⟨hl, -⟩
    exact hl
  have hid := (takeDamage_id_pos u amount).1
  have hpos := (takeDamage_id_pos u amount).2
  by_cases hr : (Unit.takeDamage u amount).2 = true
  · simp only [Game.minionTakeDamage, hlane, hr, if_true] at hlane'
    rw [List.get?_eq_getElem?] at hlane'
    rw [List.getElem?_set_eq_of_lt _ (by simpa using hlt)] at hlane'
    have hlv : lane' = lane.removeMinion (Unit.takeDamage u amount).1 := by
      simpa using hlane'.symm
    constructor
    · intro x hx
      rw [hlv, removeMinion_minions, hid] at hx
      exact removeFirstById_no_id u.id lane.minions hcountM x hx
    · intro v hv
      rw [hlv] at hv
      have hfl : 0 ≤ Int.floor (Unit.takeDamage u amount).1.position := by
        rw [hpos]; exact hfloor
      have := removeMinion_tile lane (Unit.takeDamage u amount).1 hfl v (by
        rw [hpos]
        exact hv)
      rw [hid] at this
      exact this
  · exfalso
    have hrf : (Unit.takeDamage u amount).2 = false := by
      cases hb : (Unit.takeDamage u amount).2 with
      | false => rfl
      | true => exact absurd hb hr
    simp only [Game.minionTakeDamage, hlane, hrf, Bool.false_eq_true, if_false] at hdied

/-- `takeDamage` on a minion no longer referenced anywhere leaves the game
state untouched. -/
lemma minionTakeDamage_dead_noop (g : Game) (u : Unit) (amount : ℚ) (lane : Lane)
    (hlane : g.lanes.get? u.lane = some lane)
    (hmin : ∀ x ∈ lane.minions, x.id ≠ u.id)
    (htile : ∀ t ∈ lane.tiles, ∀ v : Unit, t = some v → v.id ≠ u.id) :
    (g.minionTakeDamage u amount).1 = g := by
  have hid := (takeDamage_id_pos u amount).1
  have hset : g.lanes.set u.lane lane = g.lanes := set_get?_eq _ _ _ hlane
  by_cases hr : (Unit.takeDamage u amount).2 = true
  · have hnoop : lane.removeMinion (Unit.takeDamage u amount).1 = lane := by
      apply removeMinion_noop
      · intro x hx
        rw [hid]
        exact hmin x hx
      · intro t ht v hv
        rw [hid]
        exact htile t ht v hv
    simp only [Game.minionTakeDamage, hlane, hr, if_true, hnoop]
    rw [hset]
  · have hrf : (Unit.takeDamage u amount).2 = false := by
      cases hb : (Unit.takeDamage u amount).2 with
      | false => rfl
      | true => exact absurd hb hr
    have hmap : lane.minions.map
        (fun x => if x.id == u.id then (Unit.takeDamage u amount).1 else x) = lane.minions :=
      map_replace_eq_self u.id _ lane.minions hmin
    have htmap : lane.tiles.map (fun t =>
        match t with
        | some x => if x.id == u.id then some (Unit.takeDamage u amount).1 else some x
        | none => none) = lane.tiles :=
      tiles_replace_eq_self u.id _ lane.tiles htile
    simp only [Game.minionTakeDamage, hlane, hrf, Bool.false_eq_true, if_false, hmap, htmap]
    rw [hset]

/-- **C2.** For every unit with health `H` and every amount `a`:
`takeDamage(a)` sets health to `max(0, H - a)`; a unit whose health
reaches 0 dies and is removed from its owning container in the same tick —
the hero from its lane's attacker list, the minion from both the lane's
defender list and its tile; and a second `takeDamage` call on an
already-dead (already-removed) unit never re-triggers the death side
effects: the resulting game state is unchanged, so the kill-reward roll,
the kill-reactive hooks and the container removal happen at most once per
unit. -/
theorem takeDamage_spec (g : Game) (u : Unit) (amount rand : ℚ) (lane : Lane)
    (hlane : g.lanes.get? u.lane = some lane)
    (hcountH : lane.heroes.countP (fun x => x.id == u.id) ≤ 1)
    (hcountM : lane.minions.countP (fun x => x.id == u.id) ≤ 1)
    (hfloor : 0 ≤ Int.floor u.position) :
    ((Unit.takeDamage u amount).1.health = max 0 (u.health - amount)) ∧
    ((g.heroTakeDamage u amount rand).2.2 = true →
      ∀ lane', (g.heroTakeDamage u amount rand).1.lanes.get? u.lane = some lane' →
        ∀ x ∈ lane'.heroes, x.id ≠ u.id) ∧
    ((g.minionTakeDamage u amount).2.2 = true →
      ∀ lane', (g.minionTakeDamage u amount).1.lanes.get? u.lane = some lane' →
        (∀ x ∈ lane'.minions, x.id ≠ u.id) ∧
        (∀ v : Unit, lane'.tiles.getD (Int.floor u.position).toNat none = some v →
          v.id ≠ u.id)) ∧
    (u.health = 0 → (∀ x ∈ lane.heroes, x.id ≠ u.id) →
      (g.heroTakeDamage u amount rand).1 = g) ∧
    (u.health = 0 → (∀ x ∈ lane.minions, x.id ≠ u.id) →
      (∀ t ∈ lane.tiles, ∀ v : Unit, t = some v → v.id ≠ u.id) →
      (g.minionTakeDamage u amount).1 = g) :=
  ⟨takeDamage_health u amount,
   fun hd => heroTakeDamage_removes g u amount rand lane hlane hcountH hd,
   fun hd => minionTakeDamage_removes g u amount lane hlane hcountM hfloor hd,
   fun _ hnone => heroTakeDamage_dead_noop g u amount rand lane hlane hnone,
   fun _ hmin htile => minionTakeDamage_dead_noop g u amount lane hlane hmin htile⟩

/-- A live hero (id 1, health 10) for the damage witness. -/
def heroC2 : Unit := { mkUnit UnitKind.militiant 0 5 1 with health := 10 }

/-- An already-dead hero (health 0, id 99, no longer in any container). -/
def heroDead : Unit := { mkUnit UnitKind.militiant 0 5 99 with health := 0 }

/-- A Dreadchant within conversion range of position 5. -/
def dreadC2 : Unit := mkUnit UnitKind.dreadchant 0 4 2

/-- The lane holding that hero and Dreadchant. -/
def laneC2 : Lane := { mkLane 0 10 with heroes := [heroC2], minions := [dreadC2] }

/-- A one-lane game for the damage witness. -/
def gC2 : Game := { mkGame with lanes := [laneC2], laneCount := 1 }

/-- Witness for `takeDamage_spec`: the hypotheses hold on the concrete
game `gC2`, the clamp evaluates on the already-dead hero, and a second
`takeDamage` on it leaves the game state unchanged. -/
theorem takeDamage_spec_witness :
    gC2.lanes.get? heroDead.lane = some laneC2 ∧
    laneC2.heroes.countP (fun x => x.id == heroDead.id) ≤ 1 ∧
    heroDead.health = 0 ∧
    (Unit.takeDamage heroDead 5).1.health = max 0 (heroDead.health - 5) ∧
    (gC2.heroTakeDamage heroDead 5 0).1 = gC2 := by
  have hlane : gC2.lanes.get? heroDead.lane = some laneC2 := rfl
  have hcH : laneC2.heroes.countP (fun x => x.id == heroDead.id) ≤ 1 :=
    le_trans (List.countP_le_length _) (by simp [laneC2])
  have hcM : laneC2.minions.countP (fun x => x.id == heroDead.id) ≤ 1 :=
    le_trans (List.countP_le_length _) (by simp [laneC2])
  have hfl : 0 ≤ Int.floor heroDead.position := by
    norm_num [heroDead, mkUnit]
  have hspec := takeDamage_spec gC2 heroDead 5 0 laneC2 hlane hcH hcM hfl
  have hnone : ∀ x ∈ laneC2.heroes, x.id ≠ heroDead.id := by
    intro x hx
    simp only [laneC2, List.mem_singleton] at hx
    rw [hx]
    simp [heroC2, heroDead, mkUnit]
  exact ⟨hlane, hcH, rfl, hspec.1, hspec.2.2.2.1 rfl hnone⟩

end Undawned
